import Mathlib

/-!
Verification of the WireViz harness data model (`wv_dataclasses.py`).

A shallow embedding of the data model and operations of
`src/wireviz/wv_dataclasses.py`: quantity parsing, connector/cable
construction (pin and wire synthesis), pin activation, BOM hashing, and
quantity-multiplier resolution.  Python dictionaries are modelled as
insertion-ordered association lists, raised exceptions as `Except String`,
Python floats as rationals, and `None` as `Option`.
-/

namespace WireViz

/-- A Python value that is either an `int` or a piece of plain text; used for
pin identifiers, pin labels and wire labels (`Pin = Union[int, PlainText]`,
`Wire = Union[int, PlainText]`). -/
inductive IdOrText where
  | int : Int → IdOrText
  | text : String → IdOrText
deriving DecidableEq, Repr

/-- Python `NumberAndUnit = namedtuple("NumberAndUnit", "number unit")`.  Both slots
may hold `None` in the Python code (`bom_amount` returns
`NumberAndUnit(None, None)`), hence both are `Option`s. -/
structure NumberAndUnit where
  number : Option ℚ
  unit : Option String
deriving DecidableEq, Repr

/-- A part-number field of a `Component`: Python allows `None`, a plain
string, or (only for bundles) a list of strings indexed by wire position. -/
inductive PNVal where
  | null : PNVal
  | str : String → PNVal
  | list : List String → PNVal
deriving DecidableEq, Repr

/-- Modelled from the spec: `PartNumberInfo` (imported from `wv_bom`, not part
of the shown source) is a fixed tuple of the five part-identifying fields
(pn, manufacturer, mpn, supplier, spn). -/
structure PartNumberInfo where
  pn : PNVal
  manufacturer : PNVal
  mpn : PNVal
  supplier : PNVal
  spn : PNVal
deriving DecidableEq, Repr

/-- Modelled from the spec: `BomHash` (imported from `wv_bom`) is the
equivalence key used by the external BOM aggregation pass; its fields are
exactly the keyword arguments given to its constructor in
`Component.bom_hash` and `WireClass.bom_hash`. -/
structure BomHash where
  description : String
  qty_unit : Option String
  amount : Option NumberAndUnit
  partnumbers : Option PartNumberInfo
deriving DecidableEq, Repr

/-- Modelled from the spec: `MultiColor` (imported from `wv_colors`) wraps an
optional color; `MultiColor(None)` is the "no color" value.  Only its
presence/absence is relevant to the model. -/
def MultiColor := Option String
deriving DecidableEq, Repr

/-- Python `MultiColor(x)` applied to an optional string. -/
def mkMultiColor (c : Option String) : MultiColor := c

/-- Modelled from the spec: a `MultiColor` is falsy exactly when it holds no
color. -/
def multiColorTruthy : MultiColor → Bool
  | (none : Option String) => false
  | (some s : Option String) => decide (s ≠ "")

/-- Modelled from the spec: `str()` of a `MultiColor`, an opaque rendering of
its color text. -/
def multiColorStr : MultiColor → String
  | (none : Option String) => ""
  | (some s : Option String) => s

/-- Python `Side = Enum("Side", "LEFT RIGHT")`. -/
inductive Side where
  | LEFT : Side
  | RIGHT : Side
deriving DecidableEq, Repr

/-- Modelled from the spec: `QtyMultiplierConnector` (imported from `wv_bom`)
has exactly the members used as keys in `Connector.compute_qty_multipliers`. -/
inductive QtyMultiplierConnector where
  | PINCOUNT : QtyMultiplierConnector
  | POPULATED : QtyMultiplierConnector
  | CONNECTIONS : QtyMultiplierConnector
deriving DecidableEq, Repr

/-- Modelled from the spec: `QtyMultiplierCable` (imported from `wv_bom`)
has exactly the members used as keys in `Cable.compute_qty_multipliers`. -/
inductive QtyMultiplierCable where
  | WIRECOUNT : QtyMultiplierCable
  | TERMINATIONS : QtyMultiplierCable
  | LENGTH : QtyMultiplierCable
  | TOTAL_LENGTH : QtyMultiplierCable
deriving DecidableEq, Repr

/-- The `qty_multiplier` field of an `AdditionalComponent` after its
`__post_init__` has normalised it: a connector-scoped symbol, a cable-scoped
symbol, or a plain number (`int`/`float`). -/
inductive QtyMultiplier where
  | conn : QtyMultiplierConnector → QtyMultiplier
  | cable : QtyMultiplierCable → QtyMultiplier
  | num : ℚ → QtyMultiplier
deriving DecidableEq, Repr

/-- A Python input value accepted by `Component.parse_number_and_unit`:
`Optional[Union[NumberAndUnit, float, int, str]]`. -/
inductive PyVal where
  | pyNone : PyVal
  | pyNU : NumberAndUnit → PyVal
  | pyNum : ℚ → PyVal
  | pyStr : String → PyVal
deriving DecidableEq, Repr

/-- Split a character list at the first space, like Python's
`s.split(" ", 1)`: returns the part before the first space and, when a space
exists, the remainder after it. -/
def splitOnFirstSpace : List Char → List Char × Option (List Char)
  | [] => ([], none)
  | c :: rest =>
    if c = ' ' then ([], some rest)
    else
      let p := splitOnFirstSpace rest
      (c :: p.1, p.2)

/-- Python `Component.parse_number_and_unit`.  `pf` models Python's `float()`
string conversion: `pf s = none` exactly when `float(s)` raises
`ValueError`. -/
def parse_number_and_unit (pf : String → Option ℚ) (inp : PyVal)
    (default_unit : Option String) : Except String (Option NumberAndUnit) :=
  match inp with
  | .pyNone => .ok none
  | .pyNU x => .ok (some x)
  | .pyNum q => .ok (some ⟨some q, default_unit⟩)
  | .pyStr s =>
    let p := splitOnFirstSpace s.toList
    let number := p.1.asString
    let unit : Option String :=
      match p.2 with
      | none => default_unit
      | some u => some u.asString
    match pf number with
    | some q => .ok (some ⟨some q, unit⟩)
    | none => .error (s ++ " is not a valid number and unit.")

theorem splitOnFirstSpace_no_space (l : List Char) (h : ' ' ∉ l) :
    splitOnFirstSpace l = (l, none) := by
  induction l with
  | nil => rfl
  | cons c rest ih =>
    simp only [List.mem_cons, not_or] at h
    simp only [splitOnFirstSpace, if_neg (Ne.symm h.1), ih h.2]

theorem splitOnFirstSpace_space (t u : List Char) (h : ' ' ∉ t) :
    splitOnFirstSpace (t ++ ' ' :: u) = (t, some u) := by
  induction t with
  | nil => simp [splitOnFirstSpace]
  | cons c rest ih =>
    simp only [List.mem_cons, not_or] at h
    simp [splitOnFirstSpace, if_neg (Ne.symm h.1), ih h.2]

/-- The state of a `Component` as far as its BOM interface
(`bom_hash`, `bom_qty`, `bom_amount`) reads it.  `description` is a field of
the embedding because the Python base class reads `self.description`, a
property supplied by each concrete subclass. -/
structure Component where
  description : String
  qty : NumberAndUnit
  amount : Option NumberAndUnit
  sum_amounts_in_bom : Bool
  partnumbers : Option PartNumberInfo
deriving DecidableEq, Repr

/-- Python `Component.bom_hash`. -/
def Component.bom_hash (c : Component) : BomHash :=
  if c.sum_amounts_in_bom then
    { description := c.description
      qty_unit := match c.amount with
        | some a => a.unit
        | none => none
      amount := none
      partnumbers := c.partnumbers }
  else
    { description := c.description
      qty_unit := c.qty.unit
      amount := c.amount
      partnumbers := c.partnumbers }

/-- Python `Component.bom_qty`.  Python multiplies `qty.number * amount.number`;
absent numbers are modelled as contributing their `None`-guarded default. -/
def Component.bom_qty (c : Component) : ℚ :=
  if c.sum_amounts_in_bom then
    match c.amount with
    | some a => (c.qty.number.getD 0) * (a.number.getD 0)
    | none => c.qty.number.getD 0
  else c.qty.number.getD 0

/-- Python `Component.bom_amount`: `NumberAndUnit(None, None)` when amounts are
summed in the BOM, otherwise the component's own (possibly absent) amount. -/
def Component.bom_amount (c : Component) : Option NumberAndUnit :=
  if c.sum_amounts_in_bom then some ⟨none, none⟩ else c.amount

/-- Python `PinClass`.  `id` and `label` are `Option`s because `zip_longest` in
`Connector.__post_init__` pads missing positions with `None`. -/
structure PinClass where
  index : Nat
  id : Option IdOrText
  label : Option IdOrText
  color : MultiColor
  parent : String
  num_connections : Nat := 0
  anonymous : Bool := false
  simple : Bool := false
deriving DecidableEq, Repr

/-- Python `WireClass` (and `ShieldClass`, which subclasses it without change).
`label` is an `Option` because `zip_longest` pads with `None`; `color` is a
`MultiColor`. -/
structure WireClass where
  parent : String
  index : Nat
  id : IdOrText
  label : Option IdOrText
  color : MultiColor
  bom_id : Option String := none
  type : Option String := none
  subtype : Option String := none
  gauge : Option NumberAndUnit := none
  length : Option NumberAndUnit := none
  ignore_in_bom : Bool := false
  sum_amounts_in_bom : Bool := true
  partnumbers : Option PartNumberInfo := none
deriving DecidableEq, Repr

/-- Rendering of a Python number inside an f-string; stands in for CPython
float formatting, whose exact digit output is irrelevant to every property
below. -/
def numStr (q : Option ℚ) : String :=
  match q with
  | some x => toString x
  | none => "None"

/-- Rendering of an optional unit inside an f-string (`None` prints as
`"None"` in Python). -/
def unitStr (u : Option String) : String :=
  match u with
  | some s => s
  | none => "None"

/-- Python `WireClass.gauge_str` (also the body of `Cable.gauge_str`). -/
def WireClass.gauge_str (w : WireClass) : Option String :=
  match w.gauge with
  | none => none
  | some g => some ((numStr g.number ++ " " ++ unitStr g.unit).replace "mm2" "mm²")

/-- Python `WireClass.description`. -/
def WireClass.description (w : WireClass) : String :=
  let substrs : List (Option String) :=
    [some "Wire", w.type, w.subtype, w.gauge_str,
      if multiColorTruthy w.color then some (multiColorStr w.color) else none]
  String.intercalate ", "
    ((substrs.filterMap (fun o => o)).filter (fun s => s ≠ ""))

/-- Python `WireClass.bom_hash`. -/
def WireClass.bom_hash (w : WireClass) : BomHash :=
  if w.sum_amounts_in_bom then
    { description := w.description
      qty_unit := match w.length with
        | some l => l.unit
        | none => none
      amount := none
      partnumbers := w.partnumbers }
  else
    { description := w.description
      qty_unit := none
      amount := w.length
      partnumbers := w.partnumbers }

/-- Ordered-dictionary insertion, exactly Python's `d[k] = v`: if `k` is
already a key, the value at its original position is replaced; otherwise the
pair is appended. -/
def dictInsert {K V : Type _} [DecidableEq K] (d : List (K × V)) (k : K)
    (v : V) : List (K × V) :=
  if k ∈ d.map Prod.fst then
    d.map (fun kv => if kv.1 = k then (k, v) else kv)
  else d ++ [(k, v)]

/-- Ordered-dictionary lookup, Python's `d[k]` (first — and only —
occurrence of the key). -/
def dictLookup {K V : Type _} [DecidableEq K] (d : List (K × V)) (k : K) :
    Option V :=
  (d.find? (fun kv => kv.1 = k)).map Prod.snd

/-- A Python `for` loop that may `raise`: fold a fallible step over a list,
stopping at the first error. -/
def exceptFoldlM {σ α : Type _} (f : σ → α → Except String σ) :
    σ → List α → Except String σ
  | s, [] => .ok s
  | s, x :: xs =>
    match f s x with
    | .error e => .error e
    | .ok s' => exceptFoldlM f s' xs

/-- A Python loop building a list where each step may `raise`. -/
def exceptMapM {α β : Type _} (f : α → Except String β) :
    List α → Except String (List β)
  | [] => .ok []
  | x :: xs =>
    match f x with
    | .error e => .error e
    | .ok y =>
      match exceptMapM f xs with
      | .error e => .error e
      | .ok ys => .ok (y :: ys)

theorem dictInsert_keys_fresh {K V : Type _} [DecidableEq K]
    (d : List (K × V)) (k : K) (v : V) (h : k ∉ d.map Prod.fst) :
    dictInsert d k v = d ++ [(k, v)] := by
  simp [dictInsert, h]

theorem dictInsert_replace_keys {K V : Type _} [DecidableEq K]
    (d : List (K × V)) (k : K) (v : V) :
    (d.map (fun kv => if kv.1 = k then (k, v) else kv)).map Prod.fst
      = d.map Prod.fst := by
  induction d with
  | nil => rfl
  | cons kv rest ih =>
    by_cases hk : kv.1 = k <;> simp [hk, ih]

theorem dictInsert_keys_stale {K V : Type _} [DecidableEq K]
    (d : List (K × V)) (k : K) (v : V) (h : k ∈ d.map Prod.fst) :
    (dictInsert d k v).map Prod.fst = d.map Prod.fst := by
  simp only [dictInsert, if_pos h]
  exact dictInsert_replace_keys d k v

theorem dictLookup_append_right {K V : Type _} [DecidableEq K]
    (d : List (K × V)) (k : K) (v : V) (h : k ∉ d.map Prod.fst) :
    dictLookup (d ++ [(k, v)]) k = some v := by
  induction d with
  | nil => simp [dictLookup, List.find?]
  | cons kv rest ih =>
    simp only [List.map_cons, List.mem_cons, not_or] at h
    have hd : (decide (kv.1 = k)) = false :=
      decide_eq_false (fun hc => h.1 hc.symm)
    simpa [dictLookup, List.find?, hd] using ih h.2

/-- An `AdditionalComponent` after its `__post_init__`: the multiplier has
been normalised to a symbolic token or a number, and `qty`/`amount` have been
parsed. -/
structure AdditionalComponent where
  qty : NumberAndUnit := ⟨some 1, none⟩
  amount : Option NumberAndUnit := none
  qty_multiplier : QtyMultiplier := .num 1
  qty_multiplier_computed : ℚ := 1
deriving DecidableEq, Repr

/-- Python `AdditionalComponent.bom_qty = qty.number * _qty_multiplier_computed`. -/
def AdditionalComponent.bom_qty (a : AdditionalComponent) : ℚ :=
  (a.qty.number.getD 0) * a.qty_multiplier_computed

/-- The attribute mapping handed to the `Connector` constructor (the fields
its `__post_init__` reads). -/
structure ConnectorInput where
  designator : String
  style : Option String := none
  pincount : Option Nat := none
  pins : List IdOrText := []
  pinlabels : List IdOrText := []
  pincolors : List String := []
  loops : List (List IdOrText) := []
  show_name : Option Bool := none
  show_pincount : Option Bool := none
  hide_disconnected_pins : Bool := false
  additional_components : List AdditionalComponent := []
deriving DecidableEq, Repr

/-- A constructed `Connector`. -/
structure ConnectorState where
  designator : String
  style : Option String
  pincount : Nat
  pins : List IdOrText
  pinlabels : List IdOrText
  pincolors : List String
  pin_objects : List (Option IdOrText × PinClass)
  show_name : Bool
  show_pincount : Bool
  hide_disconnected_pins : Bool
  ports_left : Bool
  ports_right : Bool
  additional_components : List AdditionalComponent
deriving DecidableEq, Repr

/-- Python `Connector.is_autogenerated`. -/
def connectorIsAutogenerated (designator : String) : Bool :=
  designator.startsWith "AUTOGENERATED_"

/-- Python `Connector.activate_pin`: a Python `KeyError` on a missing pin id is an
error; `is_connection` increments the pin's `_num_connections`. -/
def activate_pin (st : ConnectorState) (pin_id : Option IdOrText)
    (side : Option Side) (is_connection : Bool) :
    Except String ConnectorState :=
  let upd : Except String ConnectorState :=
    if is_connection then
      match dictLookup st.pin_objects pin_id with
      | none => .error "KeyError"
      | some p =>
        let p2 : PinClass := { p with num_connections := p.num_connections + 1 }
        .ok { st with pin_objects := dictInsert st.pin_objects pin_id p2 }
    else .ok st
  match upd with
  | .error e => .error e
  | .ok s =>
    .ok { s with
      ports_left := if side = some Side.LEFT then true else s.ports_left
      ports_right := if side = some Side.RIGHT then true else s.ports_right }

/-- Python `Connector.should_show_pin`.  Python's short-circuiting `or`: when
`hide_disconnected_pins` is false the pin is not even looked up; otherwise a
missing pin raises `KeyError`. -/
def should_show_pin (st : ConnectorState) (pin_id : Option IdOrText) :
    Except String Bool :=
  if st.hide_disconnected_pins = false then .ok true
  else
    match dictLookup st.pin_objects pin_id with
    | none => .error "KeyError"
    | some p => .ok (decide (p.num_connections > 0))

/-- The body of the loop-registration `for` loop in
`Connector.__post_init__`: a loop must name exactly two pins, and both
endpoints are activated as connections (`side=None`). -/
def loopStep (st : ConnectorState) (loop : List IdOrText) :
    Except String ConnectorState :=
  if loop.length ≠ 2 then
    .error "Loops must be between exactly two pins!"
  else
    match activate_pin st (loop.get? 0) none true with
    | .error e => .error e
    | .ok st' => activate_pin st' (loop.get? 1) none true

/-- The pin-synthesis loop of `Connector.__post_init__`: iterate over
`enumerate(zip_longest(pins, pinlabels, pincolors))`, writing
`pin_objects[pin_id] = PinClass(...)` into an ordered dict. -/
def buildPinObjects (designator : String) (style : Option String)
    (ps : List IdOrText) (pinlabels : List IdOrText)
    (pincolors : List String) : List (Option IdOrText × PinClass) :=
  (List.range (max ps.length (max pinlabels.length pincolors.length))).foldl
    (fun d i =>
      dictInsert d (ps.get? i)
        { index := i
          id := ps.get? i
          label := pinlabels.get? i
          color := mkMultiColor (pincolors.get? i)
          parent := designator
          anonymous := connectorIsAutogenerated designator
          simple := decide (style = some "simple") })
    []

/-- The `style == "simple"` block of `Connector.__post_init__`: a declared
pincount above 1 fails, otherwise pincount is forced to 1; for other styles
the declared pincount (Python-falsy `None`/0 encoded as 0) passes through. -/
def simplePincountCheck (style : Option String) (pincount : Option Nat) :
    Except String Nat :=
  if style = some "simple" then
    match pincount with
    | some n =>
      if n > 1 then
        .error "Connectors with style set to simple may only have one pin"
      else .ok 1
    | none => .ok 1
  else .ok (pincount.getD 0)

/-- The `ConnectorState` assembled at the end of `Connector.__post_init__`,
before the loop-registration pass. -/
def mkConnectorState (inp : ConnectorInput) (pc1 : Nat)
    (ps : List IdOrText) : ConnectorState :=
  { designator := inp.designator
    style := inp.style
    pincount := pc1
    pins := ps
    pinlabels := inp.pinlabels
    pincolors := inp.pincolors
    pin_objects :=
      buildPinObjects inp.designator inp.style ps inp.pinlabels inp.pincolors
    show_name :=
      match inp.show_name with
      | some b => b
      | none =>
        decide (inp.style ≠ some "simple")
          && !(connectorIsAutogenerated inp.designator)
    show_pincount :=
      match inp.show_pincount with
      | some b => b
      | none => decide (inp.style ≠ some "simple")
    hide_disconnected_pins := inp.hide_disconnected_pins
    ports_left := false
    ports_right := false
    additional_components := inp.additional_components }

/-- Python `Connector.__post_init__`. -/
def connectorPostInit (inp : ConnectorInput) : Except String ConnectorState :=
  -- if style == "simple": pincount may not exceed 1 and is forced to 1
  match simplePincountCheck inp.style inp.pincount with
  | .error e => .error e
  | .ok pc0 =>
    -- if not pincount: derive it from the three lists, or fail
    let pc1 :=
      if pc0 = 0 then
        max inp.pins.length (max inp.pinlabels.length inp.pincolors.length)
      else pc0
    if pc1 = 0 then
      .error "You need to specify at least one of pincount, pins, pinlabels, or pincolors"
    else
      -- if not pins: default to [1 .. pincount]
      let ps :=
        if inp.pins.isEmpty then
          (List.range pc1).map (fun i : Nat => IdOrText.int ((i : Int) + 1))
        else inp.pins
      -- duplicate declared pin ids fail
      if ps.Nodup then
        -- loop registration: each loop names exactly two pins, both activated
        exceptFoldlM loopStep (mkConnectorState inp pc1 ps) inp.loops
      else .error "Pins are not unique"

/-- The statistics dictionary of `Connector.compute_qty_multipliers`. -/
def connectorQtyMultiplierValue (st : ConnectorState) :
    QtyMultiplierConnector → ℚ
  | .PINCOUNT => st.pincount
  | .POPULATED =>
    ((st.pin_objects.map Prod.snd).filter
      (fun p => p.num_connections > 0)).length
  | .CONNECTIONS =>
    ((st.pin_objects.map Prod.snd).map (fun p => p.num_connections)).sum

/-- The per-subitem body of `Connector.compute_qty_multipliers`. -/
def connectorResolveSub (st : ConnectorState) (sub : AdditionalComponent) :
    Except String AdditionalComponent :=
  match sub.qty_multiplier with
  | .conn m =>
    .ok { sub with qty_multiplier_computed := connectorQtyMultiplierValue st m }
  | .cable _ => .error "Used a cable multiplier in a connector!"
  | .num x => .ok { sub with qty_multiplier_computed := x }

/-- Python `Connector.compute_qty_multipliers`: resolve every nested
`AdditionalComponent`, stopping at the first scope violation. -/
def connectorComputeQtyMultipliers (st : ConnectorState) :
    Except String ConnectorState :=
  match exceptMapM (connectorResolveSub st) st.additional_components with
  | .error e => .error e
  | .ok subs => .ok { st with additional_components := subs }

/-- The `shield` attribute of a `Cable`: `Union[bool, MultiColor]`, supplied
by the user as a boolean or a color string. -/
inductive ShieldSpec where
  | bool : Bool → ShieldSpec
  | str : String → ShieldSpec
deriving DecidableEq, Repr

/-- Python truthiness of a `shield` value (`if self.shield:`). -/
def shieldTruthy : ShieldSpec → Bool
  | .bool b => b
  | .str s => decide (s ≠ "")

/-- Python truthiness of an optional string (`elif self.color_code:`). -/
def optStrTruthy : Option String → Bool
  | none => false
  | some s => decide (s ≠ "")

/-- The attribute mapping handed to the `Cable` constructor (the fields its
`__post_init__` reads). -/
structure CableInput where
  designator : String
  category : Option String := none
  type : Option String := none
  subtype : Option String := none
  gauge : PyVal := .pyNone
  length : PyVal := .pyNone
  color_code : Option String := none
  wirecount : Option Nat := none
  shield : ShieldSpec := .bool false
  colors : List String := []
  wirelabels : List IdOrText := []
  color : Option String := none
  qty : NumberAndUnit := ⟨some 1, none⟩
  sum_amounts_in_bom : Bool := true
  ignore_in_bom : Bool := false
  pn : PNVal := .null
  manufacturer : PNVal := .null
  mpn : PNVal := .null
  supplier : PNVal := .null
  spn : PNVal := .null
  show_name : Option Bool := none
  show_wirenumbers : Option Bool := none
  additional_components : List AdditionalComponent := []
deriving DecidableEq, Repr

/-- A constructed `Cable`. -/
structure CableState where
  designator : String
  category : Option String
  type : Option String
  subtype : Option String
  gauge : Option NumberAndUnit
  length : Option NumberAndUnit
  amount : Option NumberAndUnit
  qty : NumberAndUnit
  sum_amounts_in_bom : Bool
  ignore_in_bom : Bool
  partnumbers : PartNumberInfo
  wirecount : Nat
  shield : ShieldSpec
  colors : List String
  wirelabels : List IdOrText
  color : MultiColor
  wire_objects : List (IdOrText × WireClass)
  show_name : Bool
  show_wirenumbers : Bool
  additional_components : List AdditionalComponent
deriving DecidableEq, Repr

/-- Python `Cable.is_autogenerated`. -/
def cableIsAutogenerated (designator : String) : Bool :=
  designator.startsWith "AUTOGENERATED_"

/-- The wirecount/colors resolution block of `Cable.__post_init__`.
`cc` models the external `COLOR_CODES` tables of `wv_colors`
(Modelled from the spec: a named standard color-code table, indexed per
wire; `cc code = none` means the code is unknown). -/
def resolveWirecountColors (wirecount : Option Nat) (colors : List String)
    (color_code : Option String) (cc : String → Option (Nat → String)) :
    Except String (Nat × List String) :=
  let wc := wirecount.getD 0
  if wc ≠ 0 then
    -- number of wires explicitly defined
    if colors.length ≠ 0 then
      -- custom color palette, cycled or truncated to wirecount
      .ok (wc, (List.range wc).map (fun i => colors.getD (i % colors.length) ""))
    else if optStrTruthy color_code then
      match cc (color_code.getD "") with
      | none => .error "Unknown color code"
      | some f => .ok (wc, (List.range wc).map f)
    else .ok (wc, List.replicate wc "")
  else
    -- wirecount implicit in length of color list
    if colors.length = 0 then
      .error "Unknown number of wires. Must specify wirecount or colors (implicit length)"
    else .ok (colors.length, colors)

/-- The reserved-shield-label check of `Cable.__post_init__`. -/
def checkShieldLabel (shield : ShieldSpec) (wirelabels : List IdOrText) :
    Except String Unit :=
  if wirelabels.length ≠ 0 then
    if shieldTruthy shield && decide (IdOrText.text "s" ∈ wirelabels) then
      .error "s may not be used as a wire label for a shielded cable."
    else .ok ()
  else .ok ()

/-- The list-valued part-number check of `Cable.__post_init__`, iterating
over `[manufacturer, mpn, supplier, spn, pn]`. -/
def checkPartdataLists (category : Option String) (wirecount : Nat)
    (fields : List PNVal) : Except String Unit :=
  exceptFoldlM
    (fun _ f =>
      match f with
      | .list l =>
        if category = some "bundle" then
          if l.length ≠ wirecount then
            .error "lists of part data must match wirecount"
          else .ok ()
        else .error "lists of part data are only supported for bundles"
      | _ => .ok ())
    () fields

/-- Python `_get_correct_element`: index into a list-valued field (a Python
`IndexError` on overflow is an error), pass scalars through. -/
def getCorrectElement (v : PNVal) (idx : Nat) : Except String PNVal :=
  match v with
  | .list l =>
    match l.get? idx with
    | some s => .ok (.str s)
    | none => .error "IndexError"
  | x => .ok x

/-- Python `Cable._get_wire_partnumber`: per-wire part numbers for bundles, `None`
for ordinary cables. -/
def get_wire_partnumber (category : Option String) (pns : PartNumberInfo)
    (idx : Nat) : Except String (Option PartNumberInfo) :=
  if category = some "bundle" then do
    let pn ← getCorrectElement pns.pn idx
    let manufacturer ← getCorrectElement pns.manufacturer idx
    let mpn ← getCorrectElement pns.mpn idx
    let supplier ← getCorrectElement pns.supplier idx
    let spn ← getCorrectElement pns.spn idx
    .ok (some ⟨pn, manufacturer, mpn, supplier, spn⟩)
  else .ok none

/-- The wire-synthesis loop of `Cable.__post_init__`: iterate over
`enumerate(zip_longest(colors, wirelabels))`, writing
`wire_objects[wire_index + 1] = WireClass(...)` into an ordered dict. -/
def buildWireObjects (designator : String) (category : Option String)
    (type subtype : Option String) (gauge length : Option NumberAndUnit)
    (sum_flag ignore_flag : Bool) (pns : PartNumberInfo)
    (cols : List String) (labels : List IdOrText) :
    Except String (List (IdOrText × WireClass)) :=
  exceptFoldlM
    (fun d i =>
      match get_wire_partnumber category pns i with
      | .error e => .error e
      | .ok wpns =>
        .ok (dictInsert d (IdOrText.int ((i : Int) + 1))
          { parent := designator
            index := i
            id := IdOrText.int ((i : Int) + 1)
            label := labels.get? i
            color := mkMultiColor (cols.get? i)
            type := type
            subtype := subtype
            gauge := gauge
            length := length
            sum_amounts_in_bom := sum_flag
            ignore_in_bom := ignore_flag
            partnumbers := wpns }))
    [] (List.range (max cols.length labels.length))

/-- The `ShieldClass` record created by `Cable.__post_init__` for a shielded
cable: reserved id `"s"`, index following the last wire (`index_offset`),
label `"Shield"`, color taken from the shield value when it is itself a
color string (`isinstance(self.shield, str)`), else no color. -/
def shieldEntry (designator : String) (shield : ShieldSpec)
    (index_offset : Nat) : WireClass :=
  { parent := designator
    index := index_offset
    id := IdOrText.text "s"
    label := some (IdOrText.text "Shield")
    color :=
      match shield with
      | .str s => mkMultiColor (some s)
      | .bool _ => mkMultiColor none }

/-- The shield block of `Cable.__post_init__`: when the cable is shielded,
one extra entry is written at key `"s"`. -/
def appendShield (designator : String) (shield : ShieldSpec)
    (wires : List (IdOrText × WireClass)) : List (IdOrText × WireClass) :=
  if shieldTruthy shield then
    dictInsert wires (IdOrText.text "s")
      (shieldEntry designator shield wires.length)
  else wires

/-- Python `Cable.__post_init__`.  `pf` models `float()` as in
`parse_number_and_unit`; `remove_links` (from `wv_utils`, Modelled from the
spec: strips hyperlink markup from part-number text, irrelevant to every
property below) is the identity on the embedded values. -/
def cablePostInit (pf : String → Option ℚ)
    (cc : String → Option (Nat → String)) (inp : CableInput) :
    Except String CableState := do
  let partnumbers : PartNumberInfo :=
    ⟨inp.pn, inp.manufacturer, inp.mpn, inp.supplier, inp.spn⟩
  let gauge ← parse_number_and_unit pf inp.gauge (some "mm2")
  let length ← parse_number_and_unit pf inp.length (some "m")
  -- self.amount = self.length  (for BOM)
  let amount := length
  let (wc, cols) ←
    resolveWirecountColors inp.wirecount inp.colors inp.color_code cc
  let _ ← checkShieldLabel inp.shield inp.wirelabels
  let _ ← checkPartdataLists inp.category wc
    [inp.manufacturer, inp.mpn, inp.supplier, inp.spn, inp.pn]
  let wires ← buildWireObjects inp.designator inp.category inp.type
    inp.subtype gauge length inp.sum_amounts_in_bom inp.ignore_in_bom
    partnumbers cols inp.wirelabels
  let wire_objects := appendShield inp.designator inp.shield wires
  .ok
    { designator := inp.designator
      category := inp.category
      type := inp.type
      subtype := inp.subtype
      gauge := gauge
      length := length
      amount := amount
      qty := inp.qty
      sum_amounts_in_bom := inp.sum_amounts_in_bom
      ignore_in_bom := inp.ignore_in_bom
      partnumbers := partnumbers
      wirecount := wc
      shield := inp.shield
      colors := cols
      wirelabels := inp.wirelabels
      color := mkMultiColor inp.color
      wire_objects := wire_objects
      show_name :=
        match inp.show_name with
        | some b => b
        | none => !(cableIsAutogenerated inp.designator)
      show_wirenumbers :=
        match inp.show_wirenumbers with
        | some b => b
        | none => decide (inp.category ≠ some "bundle")
      additional_components := inp.additional_components }

/-- Python `Cable.gauge_str`. -/
def cableGaugeStr (st : CableState) : Option String :=
  match st.gauge with
  | none => none
  | some g =>
    some ((numStr g.number ++ " " ++ unitStr g.unit).replace "mm2" "mm²")

/-- Python `Cable.description`: raises for bundles ("Do this at the wire level!"),
otherwise builds the human-readable cable description. -/
def cableDescription (st : CableState) : Except String String :=
  if st.category = some "bundle" then .error "Do this at the wire level!"
  else
    let substrs : List (String × Option String) :=
      [("", some "Cable"),
        (", ", st.type),
        (", ", st.subtype),
        (", ", some (toString st.wirecount)),
        (" ",
          match cableGaugeStr st with
          | some g => some ("x " ++ g)
          | none => some "wires"),
        (" ", if shieldTruthy st.shield then some "shielded" else none),
        (", ",
          if multiColorTruthy st.color then some (multiColorStr st.color)
          else none)]
    .ok (String.join (substrs.filterMap
      (fun s =>
        match s.2 with
        | some v => if v = "" then none else some (s.1 ++ v)
        | none => none)))

/-- Python `Cable.bom_hash`: raises for bundles, otherwise defers to
`Component.bom_hash` (with `description` dispatched to
`Cable.description`). -/
def cableBomHash (st : CableState) : Except String BomHash :=
  if st.category = some "bundle" then .error "Do this at the wire level!"
  else
    match cableDescription st with
    | .error e => .error e
    | .ok d =>
      .ok (Component.bom_hash
        ⟨d, st.qty, st.amount, st.sum_amounts_in_bom, some st.partnumbers⟩)

/-- Python `total_length` in `Cable.compute_qty_multipliers`: sum over all wire
objects of their length number (0 for absent lengths). -/
def cableTotalLength (st : CableState) : ℚ :=
  ((st.wire_objects.map Prod.snd).map
    (fun w =>
      match w.length with
      | some nu => nu.number.getD 0
      | none => 0)).sum

/-- The statistics dictionary of `Cable.compute_qty_multipliers`
(`TERMINATIONS` is the source's hard-coded placeholder 999). -/
def cableQtyMultiplierValue (st : CableState) : QtyMultiplierCable → ℚ
  | .WIRECOUNT => st.wire_objects.length
  | .TERMINATIONS => 999
  | .LENGTH =>
    match st.length with
    | some nu => nu.number.getD 0
    | none => 0
  | .TOTAL_LENGTH => cableTotalLength st

/-- The per-subitem body of `Cable.compute_qty_multipliers`: length-style
multipliers forbid an explicit qty unit and inherit the cable's length unit
(an absent cable length makes `self.length.unit` a Python
`AttributeError`). -/
def cableResolveSub (st : CableState) (sub : AdditionalComponent) :
    Except String AdditionalComponent :=
  match sub.qty_multiplier with
  | .cable m =>
    let computed := cableQtyMultiplierValue st m
    if m = .LENGTH ∨ m = .TOTAL_LENGTH then
      if sub.qty.unit ≠ none then
        .error "No unit may be specified when using a length multiplier"
      else
        match st.length with
        | none => .error "AttributeError"
        | some nu =>
          .ok { sub with
            qty := ⟨sub.qty.number, nu.unit⟩
            qty_multiplier_computed := computed }
    else .ok { sub with qty_multiplier_computed := computed }
  | .conn _ => .error "Used a connector multiplier in a cable!"
  | .num x => .ok { sub with qty_multiplier_computed := x }

/-- Python `Cable.compute_qty_multipliers`: resolve every nested
`AdditionalComponent`, stopping at the first violation. -/
def cableComputeQtyMultipliers (st : CableState) :
    Except String CableState :=
  match exceptMapM (cableResolveSub st) st.additional_components with
  | .error e => .error e
  | .ok subs => .ok { st with additional_components := subs }

/-! ## Infrastructure lemmas -/

theorem exceptMapM_mem_error {α β : Type _} (f : α → Except String β)
    (l : List α) (x : α) (e : String) (hx : x ∈ l) (hf : f x = .error e) :
    ∃ e', exceptMapM f l = .error e' := by
  induction l with
  | nil => cases hx
  | cons y ys ih =>
    rcases List.mem_cons.mp hx with h | h
    · subst h
      exact ⟨e, by simp [exceptMapM, hf]⟩
    · rcases ih h with ⟨e', he'⟩
      unfold exceptMapM
      cases hy : f y with
      | error e0 => exact ⟨e0, rfl⟩
      | ok v => exact ⟨e', by simp [he']⟩

theorem exceptMapM_congr_ok {α β : Type _} (f : α → Except String β)
    (g : α → β) (l : List α) (h : ∀ x ∈ l, f x = .ok (g x)) :
    exceptMapM f l = .ok (l.map g) := by
  induction l with
  | nil => rfl
  | cons y ys ih =>
    have hy := h y (List.mem_cons_self y ys)
    have hys := ih (fun x hx => h x (List.mem_cons_of_mem y hx))
    simp [exceptMapM, hy, hys]

theorem exceptMapM_get? {α β : Type _} (f : α → Except String β)
    (l : List α) (l' : List β) (h : exceptMapM f l = .ok l') :
    ∀ i x, l.get? i = some x →
      ∃ y, f x = .ok y ∧ l'.get? i = some y := by
  induction l generalizing l' with
  | nil => intro i x hx; simp at hx
  | cons a as ih =>
    intro i x hx
    unfold exceptMapM at h
    cases ha : f a with
    | error e => simp [ha] at h
    | ok y0 =>
      rw [ha] at h
      cases has : exceptMapM f as with
      | error e => simp [has] at h
      | ok ys =>
        rw [has] at h
        simp only at h
        injection h with h
        subst h
        cases i with
        | zero =>
          simp only [List.get?] at hx
          injection hx with hx
          subst hx
          exact ⟨y0, ha, rfl⟩
        | succ j =>
          simp only [List.get?] at hx ⊢
          exact ih ys has j x hx

theorem exceptFoldlM_append_singleton {σ α : Type _}
    (f : σ → α → Except String σ) (s : σ) (xs : List α) (x : α) :
    exceptFoldlM f s (xs ++ [x]) =
      match exceptFoldlM f s xs with
      | .error e => .error e
      | .ok s' => f s' x := by
  induction xs generalizing s with
  | nil =>
    simp only [List.nil_append, exceptFoldlM]
    cases f s x <;> rfl
  | cons a as ih =>
    simp only [List.cons_append, exceptFoldlM]
    cases f s a with
    | error e => rfl
    | ok s' => exact ih s'

theorem dictLookup_mem_keys {K V : Type _} [DecidableEq K]
    (d : List (K × V)) (k : K) (v : V) (h : dictLookup d k = some v) :
    k ∈ d.map Prod.fst := by
  induction d with
  | nil => simp [dictLookup] at h
  | cons kv rest ih =>
    by_cases hk : kv.1 = k
    · simp [hk]
    · have hd : (decide (kv.1 = k)) = false := decide_eq_false hk
      simp only [dictLookup, List.find?, hd] at h
      simp only [List.map_cons, List.mem_cons]
      exact Or.inr (ih h)

theorem dictLookup_not_mem_keys {K V : Type _} [DecidableEq K]
    (d : List (K × V)) (k : K) (h : k ∉ d.map Prod.fst) :
    dictLookup d k = none := by
  induction d with
  | nil => rfl
  | cons kv rest ih =>
    simp only [List.map_cons, List.mem_cons, not_or] at h
    have hd : (decide (kv.1 = k)) = false :=
      decide_eq_false (fun hc => h.1 hc.symm)
    simp only [dictLookup, List.find?, hd]
    exact ih h.2

theorem dictLookup_insert_self {K V : Type _} [DecidableEq K]
    (d : List (K × V)) (k : K) (v : V) (h : k ∈ d.map Prod.fst) :
    dictLookup (dictInsert d k v) k = some v := by
  simp only [dictInsert, if_pos h]
  induction d with
  | nil => simp at h
  | cons kv rest ih =>
    by_cases hk : kv.1 = k
    · simp [dictLookup, List.find?, hk]
    · have hmem : k ∈ rest.map Prod.fst := by
        rcases List.mem_cons.mp h with hc | hc
        · exact absurd hc.symm hk
        · exact hc
      have hd : (decide (kv.1 = k)) = false := decide_eq_false hk
      simp only [List.map_cons, if_neg hk, dictLookup, List.find?, hd]
      exact ih hmem

theorem dictLookup_replace_ne {K V : Type _} [DecidableEq K]
    (d : List (K × V)) (k k2 : K) (v : V) (h : k2 ≠ k) :
    dictLookup (d.map (fun kv => if kv.1 = k then (k, v) else kv)) k2
      = dictLookup d k2 := by
  induction d with
  | nil => rfl
  | cons kv rest ih =>
    by_cases hk : kv.1 = k
    · have hd1 : (decide (k = k2)) = false :=
        decide_eq_false (fun hc => h hc.symm)
      have hd2 : (decide (kv.1 = k2)) = false :=
        decide_eq_false (fun hc => h ((hc ▸ hk : k2 = k)))
      simp only [List.map_cons, if_pos hk, dictLookup, List.find?, hd1, hd2]
      exact ih
    · by_cases hk2 : kv.1 = k2
      · have hd : (decide (kv.1 = k2)) = true := decide_eq_true hk2
        simp only [List.map_cons, if_neg hk, dictLookup, List.find?, hd]
      · simp only [List.map_cons, if_neg hk, dictLookup, List.find?,
          decide_eq_false hk2]
        exact ih

theorem dictLookup_append_singleton_ne {K V : Type _} [DecidableEq K]
    (d : List (K × V)) (k k2 : K) (v : V) (h : k2 ≠ k) :
    dictLookup (d ++ [(k, v)]) k2 = dictLookup d k2 := by
  induction d with
  | nil =>
    have hd : (decide (k = k2)) = false :=
      decide_eq_false (fun hc => h hc.symm)
    simp [dictLookup, List.find?, hd]
  | cons kv rest ih =>
    by_cases hk2 : kv.1 = k2
    · simp [dictLookup, List.find?, hk2]
    · simp only [List.cons_append, dictLookup, List.find?,
        decide_eq_false hk2]
      exact ih

theorem dictLookup_insert_ne {K V : Type _} [DecidableEq K]
    (d : List (K × V)) (k k2 : K) (v : V) (h : k2 ≠ k) :
    dictLookup (dictInsert d k v) k2 = dictLookup d k2 := by
  unfold dictInsert
  by_cases hmem : k ∈ d.map Prod.fst
  · rw [if_pos hmem]
    exact dictLookup_replace_ne d k k2 v h
  · rw [if_neg hmem]
    exact dictLookup_append_singleton_ne d k k2 v h

/-! ## Key characterizations of the synthesized pin/wire dictionaries -/

theorem foldInsert_get?_keys {K V : Type _} [DecidableEq K]
    (ps : List K) (v : Nat → V) (hps : ps.Nodup) (n : Nat) :
    ((List.range n).foldl
        (fun d i => dictInsert d (ps.get? i) (v i))
        ([] : List (Option K × V))).map Prod.fst
      = (ps.take n).map Option.some
        ++ (if ps.length < n then [(none : Option K)] else []) := by
  induction n with
  | zero => simp
  | succ m ih =>
    rw [List.range_succ, List.foldl_append, List.foldl_cons, List.foldl_nil]
    set acc := (List.range m).foldl
      (fun d i => dictInsert d (ps.get? i) (v i))
      ([] : List (Option K × V)) with hacc
    by_cases hm : m < ps.length
    · have hget : ps.get? m = some (ps.get ⟨m, hm⟩) := List.get?_eq_get hm
      have hnlt : ¬ ps.length < m := by omega
      have hnlt' : ¬ ps.length < m + 1 := by omega
      have hkeys : acc.map Prod.fst = (ps.take m).map Option.some := by
        rw [ih, if_neg hnlt, List.append_nil]
      have hfresh : some (ps.get ⟨m, hm⟩)
          ∉ (ps.take m).map Option.some := by
        intro hmem
        rcases List.mem_map.mp hmem with ⟨a, ha, hae⟩
        have ha' : a = ps.get ⟨m, hm⟩ := Option.some.inj hae
        subst ha'
        have hdrop : ps.get ⟨m, hm⟩ ∈ ps.drop m := by
          rw [List.drop_eq_get_cons hm]
          exact List.mem_cons_self _ _
        exact (List.disjoint_take_drop hps (le_refl m)) ha hdrop
      have hfresh2 : ps.get? m ∉ acc.map Prod.fst := by
        rw [hkeys, hget]; exact hfresh
      rw [dictInsert_keys_fresh _ _ _ hfresh2, List.map_append, hkeys,
        List.take_succ, hget, if_neg hnlt']
      simp [List.getElem?_eq_getElem hm]
      rw [List.take_succ, List.getElem?_map, List.getElem?_eq_getElem hm]
      rfl
    · have hgetnone : ps.get? m = none :=
        List.get?_eq_none.mpr (le_of_not_lt hm)
      by_cases hl : ps.length < m
      · have hmem : (none : Option K) ∈ acc.map Prod.fst := by
          rw [ih, if_pos hl]
          exact List.mem_append.mpr (Or.inr (List.mem_singleton.mpr rfl))
        rw [hgetnone, dictInsert_keys_stale _ _ _ hmem, ih, if_pos hl,
          if_pos (by omega), List.take_of_length_le (by omega),
          List.take_of_length_le (by omega)]
      · have hlen : ps.length = m := by omega
        have hkeys : acc.map Prod.fst = ps.map Option.some := by
          rw [ih, if_neg hl, List.append_nil,
            List.take_of_length_le (by omega)]
        have hfresh2 : ps.get? m ∉ acc.map Prod.fst := by
          rw [hkeys, hgetnone]
          intro hmem
          rcases List.mem_map.mp hmem with ⟨a, _, hae⟩
          exact Option.noConfusion hae
        rw [dictInsert_keys_fresh _ _ _ hfresh2, List.map_append, hkeys,
          if_pos (by omega), List.take_of_length_le (by omega), hgetnone]
        simp

theorem buildWireObjects_ok_keys (designator : String)
    (category : Option String) (type subtype : Option String)
    (gauge length : Option NumberAndUnit) (sum_flag ignore_flag : Bool)
    (pns : PartNumberInfo) (cols : List String) (labels : List IdOrText)
    (l : List (IdOrText × WireClass))
    (h : buildWireObjects designator category type subtype gauge length
      sum_flag ignore_flag pns cols labels = .ok l) :
    l.map Prod.fst = (List.range (max cols.length labels.length)).map
      (fun i : Nat => IdOrText.int ((i : Int) + 1)) := by
  unfold buildWireObjects at h
  revert h
  generalize max cols.length labels.length = n
  intro h
  induction n generalizing l with
  | zero =>
    simp only [List.range_zero, exceptFoldlM] at h
    injection h with h
    subst h
    rfl
  | succ m ih =>
    rw [List.range_succ, exceptFoldlM_append_singleton] at h
    cases hfold : exceptFoldlM _ ([] : List (IdOrText × WireClass))
        (List.range m) with
    | error e => rw [hfold] at h; exact absurd h (by simp)
    | ok d =>
      rw [hfold] at h
      simp only at h
      cases hpn : get_wire_partnumber category pns m with
      | error e => rw [hpn] at h; exact absurd h (by simp)
      | ok wpns =>
        rw [hpn] at h
        simp only at h
        injection h with h
        have hkeys := ih d hfold
        have hfresh : IdOrText.int ((m : Int) + 1) ∉ d.map Prod.fst := by
          rw [hkeys]
          intro hmem
          rcases List.mem_map.mp hmem with ⟨i, hi, hie⟩
          have h1 : (i : Int) + 1 = (m : Int) + 1 := by injection hie
          have h2 : i = m := by omega
          subst h2
          exact absurd (List.mem_range.mp hi) (lt_irrefl _)
        rw [← h, dictInsert_keys_fresh _ _ _ hfresh, List.map_append, hkeys,
          List.range_succ, List.map_append]
        rfl

theorem int_keys_no_text {l : List (IdOrText × WireClass)}
    (hl : l.map Prod.fst = l.map Prod.fst)
    (hk : ∀ k ∈ l.map Prod.fst, ∃ z : Int, k = IdOrText.int z) (s : String) :
    IdOrText.text s ∉ l.map Prod.fst := by
  intro hmem
  rcases hk _ hmem with ⟨z, hz⟩
  exact IdOrText.noConfusion hz

theorem appendShield_keys (designator : String) (shield : ShieldSpec)
    (wires : List (IdOrText × WireClass))
    (hk : ∀ k ∈ wires.map Prod.fst, ∃ z : Int, k = IdOrText.int z) :
    (appendShield designator shield wires).map Prod.fst
      = wires.map Prod.fst
        ++ (if shieldTruthy shield then [IdOrText.text "s"] else []) := by
  unfold appendShield
  by_cases hs : shieldTruthy shield
  · rw [if_pos hs, if_pos hs,
      dictInsert_keys_fresh _ _ _ (int_keys_no_text rfl hk "s"),
      List.map_append]
    rfl
  · rw [if_neg hs, if_neg hs, List.append_nil]

theorem appendShield_lookup (designator : String) (shield : ShieldSpec)
    (wires : List (IdOrText × WireClass))
    (hk : ∀ k ∈ wires.map Prod.fst, ∃ z : Int, k = IdOrText.int z)
    (hs : shieldTruthy shield = true) :
    dictLookup (appendShield designator shield wires) (IdOrText.text "s")
      = some (shieldEntry designator shield wires.length) := by
  unfold appendShield
  rw [if_pos hs, dictInsert_keys_fresh _ _ _ (int_keys_no_text rfl hk "s")]
  exact dictLookup_append_right _ _ _ (int_keys_no_text rfl hk "s")

/-- Inversion of `Cable.__post_init__`: a successful construction factors
into its successive stages, and the resulting state is the literal record
built from their outputs. -/
theorem cablePostInit_ok_inv (pf : String → Option ℚ)
    (cc : String → Option (Nat → String)) (inp : CableInput)
    (st : CableState) (h : cablePostInit pf cc inp = .ok st) :
    ∃ gauge length wc cols wires,
      parse_number_and_unit pf inp.gauge (some "mm2") = .ok gauge ∧
      parse_number_and_unit pf inp.length (some "m") = .ok length ∧
      resolveWirecountColors inp.wirecount inp.colors inp.color_code cc
        = .ok (wc, cols) ∧
      buildWireObjects inp.designator inp.category inp.type inp.subtype
        gauge length inp.sum_amounts_in_bom inp.ignore_in_bom
        ⟨inp.pn, inp.manufacturer, inp.mpn, inp.supplier, inp.spn⟩
        cols inp.wirelabels = .ok wires ∧
      st.wirecount = wc ∧ st.colors = cols ∧
      st.wirelabels = inp.wirelabels ∧ st.shield = inp.shield ∧
      st.category = inp.category ∧ st.length = length ∧
      st.additional_components = inp.additional_components ∧
      st.wire_objects = appendShield inp.designator inp.shield wires := by
  unfold cablePostInit at h
  simp only [bind, Except.bind] at h
  cases hg : parse_number_and_unit pf inp.gauge (some "mm2") with
  | error e => rw [hg] at h; exact absurd h (by simp)
  | ok gauge =>
  rw [hg] at h
  simp only at h
  cases hl : parse_number_and_unit pf inp.length (some "m") with
  | error e => rw [hl] at h; exact absurd h (by simp)
  | ok length =>
  rw [hl] at h
  simp only at h
  cases hr : resolveWirecountColors inp.wirecount inp.colors
      inp.color_code cc with
  | error e => rw [hr] at h; exact absurd h (by simp)
  | ok p =>
  obtain ⟨wc, cols⟩ := p
  rw [hr] at h
  simp only at h
  cases hsl : checkShieldLabel inp.shield inp.wirelabels with
  | error e => rw [hsl] at h; exact absurd h (by simp)
  | ok u =>
  obtain ⟨⟩ := u
  rw [hsl] at h
  simp only at h
  cases hpd : checkPartdataLists inp.category wc
      [inp.manufacturer, inp.mpn, inp.supplier, inp.spn, inp.pn] with
  | error e => rw [hpd] at h; exact absurd h (by simp)
  | ok u =>
  obtain ⟨⟩ := u
  rw [hpd] at h
  simp only at h
  cases hw : buildWireObjects inp.designator inp.category inp.type
      inp.subtype gauge length inp.sum_amounts_in_bom inp.ignore_in_bom
      ⟨inp.pn, inp.manufacturer, inp.mpn, inp.supplier, inp.spn⟩
      cols inp.wirelabels with
  | error e => rw [hw] at h; exact absurd h (by simp)
  | ok wires =>
  rw [hw] at h
  simp only at h
  injection h with h
  subst h
  exact ⟨gauge, length, wc, cols, wires, rfl, rfl, rfl, hw, rfl, rfl, rfl,
    rfl, rfl, rfl, rfl, rfl⟩

/-- The construction-time fields of a `ConnectorState` that the
loop-registration pass leaves untouched (it only bumps connection counts and
port flags). -/
def connectorShape (a b : ConnectorState) : Prop :=
  a.pin_objects.map Prod.fst = b.pin_objects.map Prod.fst
  ∧ a.pincount = b.pincount ∧ a.pins = b.pins
  ∧ a.pinlabels = b.pinlabels ∧ a.pincolors = b.pincolors
  ∧ a.show_name = b.show_name ∧ a.show_pincount = b.show_pincount

theorem connectorShape_refl (a : ConnectorState) : connectorShape a a :=
  ⟨rfl, rfl, rfl, rfl, rfl, rfl, rfl⟩

theorem connectorShape_trans {a b c : ConnectorState}
    (h1 : connectorShape a b) (h2 : connectorShape b c) :
    connectorShape a c := by
  obtain ⟨x1, x2, x3, x4, x5, x6, x7⟩ := h1
  obtain ⟨y1, y2, y3, y4, y5, y6, y7⟩ := h2
  exact ⟨x1.trans y1, x2.trans y2, x3.trans y3, x4.trans y4, x5.trans y5,
    x6.trans y6, x7.trans y7⟩

theorem activate_pin_shape (st : ConnectorState) (k : Option IdOrText)
    (side : Option Side) (b : Bool) (st' : ConnectorState)
    (h : activate_pin st k side b = .ok st') : connectorShape st' st := by
  unfold activate_pin at h
  cases hb : b with
  | false =>
    rw [hb] at h
    simp only [Bool.false_eq_true, if_false] at h
    injection h with h
    subst h
    exact ⟨rfl, rfl, rfl, rfl, rfl, rfl, rfl⟩
  | true =>
    rw [hb] at h
    simp only [if_true] at h
    cases hl : dictLookup st.pin_objects k with
    | none => rw [hl] at h; exact absurd h (by simp)
    | some p =>
      rw [hl] at h
      simp only at h
      injection h with h
      subst h
      refine ⟨?_, rfl, rfl, rfl, rfl, rfl, rfl⟩
      exact dictInsert_keys_stale _ _ _ (dictLookup_mem_keys _ _ _ hl)

theorem loopStep_shape (st : ConnectorState) (lp : List IdOrText)
    (st' : ConnectorState) (h : loopStep st lp = .ok st') :
    connectorShape st' st := by
  unfold loopStep at h
  by_cases h2 : lp.length ≠ 2
  · rw [if_pos h2] at h; exact absurd h (by simp)
  · rw [if_neg h2] at h
    cases ha : activate_pin st (lp.get? 0) none true with
    | error e => rw [ha] at h; exact absurd h (by simp)
    | ok stm =>
      rw [ha] at h
      simp only at h
      exact connectorShape_trans (activate_pin_shape _ _ _ _ _ h)
        (activate_pin_shape _ _ _ _ _ ha)

theorem loopFold_shape (loops : List (List IdOrText)) :
    ∀ st0 st, exceptFoldlM loopStep st0 loops = .ok st →
      connectorShape st st0 := by
  induction loops with
  | nil =>
    intro st0 st h
    unfold exceptFoldlM at h
    injection h with h
    subst h
    exact connectorShape_refl _
  | cons lp rest ih =>
    intro st0 st h
    unfold exceptFoldlM at h
    cases hstep : loopStep st0 lp with
    | error e => rw [hstep] at h; exact absurd h (by simp)
    | ok st1 =>
      rw [hstep] at h
      exact connectorShape_trans (ih st1 st h) (loopStep_shape _ _ _ hstep)

/-- Inversion of `Connector.__post_init__`: a successful construction
factors into the simple-style check, the pincount/pins defaulting, the
uniqueness check, and the loop-registration pass starting from the assembled
state. -/
theorem connectorPostInit_ok_inv (inp : ConnectorInput) (st : ConnectorState)
    (h : connectorPostInit inp = .ok st) :
    ∃ pc0 pc1 ps,
      simplePincountCheck inp.style inp.pincount = .ok pc0 ∧
      pc1 = (if pc0 = 0 then
        max inp.pins.length (max inp.pinlabels.length inp.pincolors.length)
        else pc0) ∧
      pc1 ≠ 0 ∧
      ps = (if inp.pins.isEmpty then
        (List.range pc1).map (fun i : Nat => IdOrText.int ((i : Int) + 1))
        else inp.pins) ∧
      ps.Nodup ∧
      exceptFoldlM loopStep (mkConnectorState inp pc1 ps) inp.loops
        = .ok st := by
  unfold connectorPostInit at h
  cases h1 : simplePincountCheck inp.style inp.pincount with
  | error e => rw [h1] at h; exact absurd h (by simp)
  | ok pc0 =>
  rw [h1] at h
  simp only at h
  by_cases h2 : (if pc0 = 0 then
      max inp.pins.length (max inp.pinlabels.length inp.pincolors.length)
      else pc0) = 0
  · rw [if_pos h2] at h; exact absurd h (by simp)
  · rw [if_neg h2] at h
    by_cases h3 : (if inp.pins.isEmpty then
        (List.range (if pc0 = 0 then
          max inp.pins.length (max inp.pinlabels.length inp.pincolors.length)
          else pc0)).map (fun i : Nat => IdOrText.int ((i : Int) + 1))
        else inp.pins).Nodup
    · rw [if_pos h3] at h
      exact ⟨pc0, _, _, rfl, rfl, h2, rfl, h3, h⟩
    · rw [if_neg h3] at h
      exact absurd h (by simp)

theorem resolveWirecountColors_ok_length (wirecount : Option Nat)
    (colors : List String) (color_code : Option String)
    (cc : String → Option (Nat → String)) (wc : Nat) (cols : List String)
    (h : resolveWirecountColors wirecount colors color_code cc
      = .ok (wc, cols)) : cols.length = wc := by
  unfold resolveWirecountColors at h
  by_cases h1 : wirecount.getD 0 ≠ 0
  · rw [if_pos h1] at h
    by_cases h2 : colors.length ≠ 0
    · rw [if_pos h2] at h
      injection h with h
      rw [Prod.mk.injEq] at h
      obtain ⟨ha, hb⟩ := h
      subst ha; subst hb
      simp
    · rw [if_neg h2] at h
      by_cases h3 : optStrTruthy color_code = true
      · rw [if_pos h3] at h
        cases h4 : cc (color_code.getD "") with
        | none => rw [h4] at h; exact absurd h (by simp)
        | some f =>
          rw [h4] at h
          simp only at h
          injection h with h
          rw [Prod.mk.injEq] at h
          obtain ⟨ha, hb⟩ := h
          subst ha; subst hb
          simp
      · rw [if_neg h3] at h
        injection h with h
        rw [Prod.mk.injEq] at h
        obtain ⟨ha, hb⟩ := h
        subst ha; subst hb
        simp
  · rw [if_neg h1] at h
    by_cases h2 : colors.length = 0
    · rw [if_pos h2] at h; exact absurd h (by simp)
    · rw [if_neg h2] at h
      injection h with h
      rw [Prod.mk.injEq] at h
      obtain ⟨ha, hb⟩ := h
      subst ha; subst hb
      rfl

/-- The full characterization of the wire dictionary produced by
`Cable.__post_init__`: keys are the integers `1..max(wirecount, len
wirelabels)` in order, plus the reserved key `"s"` when shielded, whose
entry is the synthesized shield record. -/
theorem cable_wire_objects_spec (pf : String → Option ℚ)
    (cc : String → Option (Nat → String)) (inp : CableInput)
    (st : CableState) (h : cablePostInit pf cc inp = .ok st) :
    st.wire_objects.map Prod.fst
      = (List.range (max st.wirecount st.wirelabels.length)).map
          (fun i : Nat => IdOrText.int ((i : Int) + 1))
        ++ (if shieldTruthy st.shield then [IdOrText.text "s"] else [])
    ∧ st.wirelabels = inp.wirelabels
    ∧ st.shield = inp.shield
    ∧ st.wire_objects.length
      = max st.wirecount st.wirelabels.length
        + (if shieldTruthy st.shield then 1 else 0)
    ∧ (shieldTruthy st.shield = true →
        dictLookup st.wire_objects (IdOrText.text "s")
          = some (shieldEntry inp.designator inp.shield
              (max st.wirecount st.wirelabels.length))) := by
  obtain ⟨gauge, length, wc, cols, wires, hg, hl, hr, hw, hwc, hcols, hwl,
    hsh, hcat, hlen, hadd, hwo⟩ := cablePostInit_ok_inv pf cc inp st h
  have hclen : cols.length = wc :=
    resolveWirecountColors_ok_length _ _ _ _ _ _ hr
  have hkeys := buildWireObjects_ok_keys _ _ _ _ _ _ _ _ _ _ _ _ hw
  have hmax : max cols.length inp.wirelabels.length
      = max st.wirecount st.wirelabels.length := by
    rw [hclen, hwc, hwl]
  have hintkeys : ∀ k ∈ wires.map Prod.fst, ∃ z : Int, k = IdOrText.int z := by
    intro k hk
    rw [hkeys] at hk
    rcases List.mem_map.mp hk with ⟨i, _, hie⟩
    exact ⟨(i : Int) + 1, hie.symm⟩
  have hlenw : wires.length = max st.wirecount st.wirelabels.length := by
    have := congrArg List.length hkeys
    simpa [hmax] using this
  refine ⟨?_, hwl, hsh, ?_, ?_⟩
  · rw [hwo, hsh, appendShield_keys _ _ _ hintkeys, hkeys, hmax, hwl]
  · rw [hwo, hsh]
    unfold appendShield
    by_cases hs : shieldTruthy inp.shield = true
    · rw [if_pos hs,
        dictInsert_keys_fresh _ _ _ (int_keys_no_text rfl hintkeys "s"),
        if_pos hs, List.length_append, hlenw]
      rfl
    · rw [if_neg hs, if_neg hs, hlenw, Nat.add_zero]
  · intro hs
    rw [hwo, appendShield_lookup _ _ _ hintkeys (hsh ▸ hs), hlenw]

/-! ## Concrete inputs for counterexamples and witnesses -/

/-- A concrete model of `float()` for evaluations: reads a single decimal
digit (all any witness below needs). -/
def pfNat : String → Option ℚ := fun s =>
  match s.toList with
  | [c] =>
    if c = '1' then some 1
    else if c = '2' then some 2
    else if c = '3' then some 3
    else if c = '7' then some 7
    else none
  | _ => none

/-- An empty `COLOR_CODES` table for evaluations. -/
def ccNone : String → Option (Nat → String) := fun _ => none

/-- A cable declared with `wirecount=2` but three wire labels. -/
def exC1cex : CableInput :=
  { designator := "CBL1", wirecount := some 2,
    wirelabels := [.text "a", .text "b", .text "c"] }

/-- A shielded two-wire cable (shield given as the color `"GN"`). -/
def exC1w : CableInput :=
  { designator := "CBL2", wirecount := some 2, shield := .str "GN" }

/-- A fallback state for total extraction of construction results. -/
def defaultCableState : CableState :=
  { designator := "", category := none, type := none, subtype := none,
    gauge := none, length := none, amount := none, qty := ⟨some 1, none⟩,
    sum_amounts_in_bom := true, ignore_in_bom := false,
    partnumbers := ⟨.null, .null, .null, .null, .null⟩, wirecount := 0,
    shield := .bool false, colors := [], wirelabels := [],
    color := mkMultiColor none, wire_objects := [], show_name := true,
    show_wirenumbers := true, additional_components := [] }

/-- The state constructed from `exC1w`. -/
def stC1w : CableState :=
  match cablePostInit pfNat ccNone exC1w with
  | .ok st => st
  | .error _ => defaultCableState

/-! ## Claim C1 -/

/-- C1 counterexample: the claim "the synthesized wire mapping has
exactly wirecount entries … even when the supplied wirelabels list is longer
… than the explicit wirecount" is false: `exC1cex` (wirecount 2, three wire
labels, unshielded) constructs successfully, yet its wire mapping has the
three ids 1, 2, 3 — not 2 entries. -/
theorem C1_wire_mapping_counterexample :
    (cablePostInit pfNat ccNone exC1cex).map
      (fun st => (st.wirecount, st.wire_objects.map Prod.fst,
        decide (st.wire_objects.length = st.wirecount)))
    = .ok (2, [IdOrText.int 1, IdOrText.int 2, IdOrText.int 3], false) := by
  rfl

/-- C1 (amended): for every Cable/Bundle whose construction succeeds,
the wire ids are exactly the integers `1..max(wirecount, len(wirelabels))`
in order, plus the reserved id "s" when shielded; hence the mapping has
exactly wirecount entries (+1 when shielded) whenever `wirelabels` is not
longer than the wirecount (a longer `wirelabels` list adds extra wires via
the pad-with-absent zip).  The shield entry has id "s", index following the
last wire, label "Shield", and color taken from the shield value if it is
itself a color, else no color. -/
theorem C1_wire_mapping_amended (pf : String → Option ℚ)
    (cc : String → Option (Nat → String)) (inp : CableInput)
    (st : CableState) (h : cablePostInit pf cc inp = .ok st) :
    st.wire_objects.map Prod.fst
      = (List.range (max st.wirecount st.wirelabels.length)).map
          (fun i : Nat => IdOrText.int ((i : Int) + 1))
        ++ (if shieldTruthy st.shield then [IdOrText.text "s"] else [])
    ∧ (st.wirelabels.length ≤ st.wirecount →
        st.wire_objects.length
          = st.wirecount + (if shieldTruthy st.shield then 1 else 0))
    ∧ (shieldTruthy st.shield = true →
        dictLookup st.wire_objects (IdOrText.text "s")
          = some (shieldEntry inp.designator inp.shield
              (max st.wirecount st.wirelabels.length))) := by
  obtain ⟨h1, hwl, hsh, h4, h5⟩ := cable_wire_objects_spec pf cc inp st h
  refine ⟨h1, ?_, h5⟩
  intro hle
  rw [h4, max_eq_left hle]

/-- C1 witness: the amended theorem applied to the concrete shielded
cable `exC1w`: ids are 1, 2, "s" and the mapping has wirecount + 1
entries. -/
theorem C1_wire_mapping_witness :
    stC1w.wire_objects.map Prod.fst
      = [IdOrText.int 1, IdOrText.int 2, IdOrText.text "s"]
    ∧ stC1w.wire_objects.length
      = stC1w.wirecount + (if shieldTruthy stC1w.shield then 1 else 0) := by
  have hspec := C1_wire_mapping_amended pfNat ccNone exC1w stC1w rfl
  refine ⟨?_, hspec.2.1 (by decide)⟩
  rw [hspec.1]
  decide

/-- The full characterization of the pin dictionary produced by
`Connector.__post_init__`: its keys are the declared (or defaulted) pin ids
in order, wrapped in `some`, plus a single absent (`None`) key exactly when
`pinlabels` or `pincolors` is longer than the pin-id list (all colliding
`None`-padded positions merge into one dictionary slot). -/
theorem connector_pin_objects_spec (inp : ConnectorInput)
    (st : ConnectorState) (h : connectorPostInit inp = .ok st) :
    st.pin_objects.map Prod.fst
      = st.pins.map Option.some
        ++ (if st.pins.length
              < max st.pins.length
                  (max st.pinlabels.length st.pincolors.length)
            then [(none : Option IdOrText)] else [])
    ∧ st.pins.Nodup
    ∧ st.pinlabels = inp.pinlabels ∧ st.pincolors = inp.pincolors
    ∧ (inp.pins.isEmpty = true → st.pins.length = st.pincount) := by
  obtain ⟨pc0, pc1, ps, h1, h2, h3, h4, h5, h6⟩ :=
    connectorPostInit_ok_inv inp st h
  obtain ⟨k1, k2, k3, k4, k5, k6, k7⟩ := loopFold_shape _ _ _ h6
  have hbo : (buildPinObjects inp.designator inp.style ps inp.pinlabels
      inp.pincolors).map Prod.fst
      = (ps.take (max ps.length (max inp.pinlabels.length
          inp.pincolors.length))).map Option.some
        ++ (if ps.length < max ps.length (max inp.pinlabels.length
            inp.pincolors.length) then [(none : Option IdOrText)] else []) :=
    foldInsert_get?_keys ps _ h5 _
  have htake : ps.take (max ps.length (max inp.pinlabels.length
      inp.pincolors.length)) = ps :=
    List.take_of_length_le (le_max_left _ _)
  rw [htake] at hbo
  have hmk : (mkConnectorState inp pc1 ps).pin_objects
      = buildPinObjects inp.designator inp.style ps inp.pinlabels
          inp.pincolors := rfl
  have hkeys : st.pin_objects.map Prod.fst
      = ps.map Option.some
        ++ (if ps.length < max ps.length (max inp.pinlabels.length
            inp.pincolors.length) then [(none : Option IdOrText)] else []) := by
    rw [k1, hmk, hbo]
  have hpins : st.pins = ps := by
    rw [k3]; rfl
  have hpl : st.pinlabels = inp.pinlabels := by
    rw [k4]; rfl
  have hpc : st.pincolors = inp.pincolors := by
    rw [k5]; rfl
  refine ⟨?_, ?_, hpl, hpc, ?_⟩
  · rw [hkeys, hpins, hpl, hpc]
  · rw [hpins]; exact h5
  · intro hemp
    have hps : ps = (List.range pc1).map
        (fun i : Nat => IdOrText.int ((i : Int) + 1)) := by
      rw [h4, if_pos hemp]
    have hcount : st.pincount = pc1 := by
      rw [k2]; rfl
    rw [hpins, hps, hcount]
    simp

/-! ## Claim C2 -/

/-- A connector declaring one pin id but three pin labels. -/
def exC2cex : ConnectorInput :=
  { designator := "J1", pins := [.int 1],
    pinlabels := [.text "a", .text "b", .text "c"] }

/-- A connector with explicit pincount 2 and one pin label, pins
defaulted. -/
def exC2w : ConnectorInput :=
  { designator := "J2", pincount := some 2, pinlabels := [.text "a"] }

/-- A fallback state for total extraction of construction results. -/
def defaultConnectorState : ConnectorState :=
  { designator := "", style := none, pincount := 0, pins := [],
    pinlabels := [], pincolors := [], pin_objects := [], show_name := true,
    show_pincount := true, hide_disconnected_pins := false,
    ports_left := false, ports_right := false, additional_components := [] }

/-- The state constructed from `exC2w`. -/
def stC2w : ConnectorState :=
  match connectorPostInit exC2w with
  | .ok st => st
  | .error _ => defaultConnectorState

/-- C2 counterexample: the claim "the synthesized pin mapping has
exactly pincount entries … when an explicit pin-id list is given that is
shorter than the pinlabels or pincolors lists" is false: `exC2cex` (one
declared pin id, three pin labels) constructs successfully with pincount 3,
yet the two excess `None`-padded positions collide in the dictionary,
leaving only the 2 keys `[some 1, none]`. -/
theorem C2_pin_mapping_counterexample :
    (connectorPostInit exC2cex).map
      (fun st => (st.pincount, st.pin_objects.map Prod.fst,
        decide (st.pin_objects.length = st.pincount)))
    = .ok (3, [some (IdOrText.int 1), none], false) := by
  rfl

/-- C2 (amended): for every Connector whose construction succeeds, all
pin ids in the mapping are distinct, and the mapping's keys are exactly the
declared (or defaulted) pin ids plus one single absent-id entry when
`pinlabels` or `pincolors` is longer than the pin-id list; the count
therefore equals pincount whenever the pin-id list is defaulted and the
label/color lists do not exceed pincount — but an explicit pin-id list
that is more than one shorter than the other lists yields fewer than
pincount entries. -/
theorem C2_pin_mapping_amended (inp : ConnectorInput) (st : ConnectorState)
    (h : connectorPostInit inp = .ok st) :
    (st.pin_objects.map Prod.fst).Nodup
    ∧ st.pin_objects.map Prod.fst
      = st.pins.map Option.some
        ++ (if st.pins.length
              < max st.pins.length
                  (max st.pinlabels.length st.pincolors.length)
            then [(none : Option IdOrText)] else [])
    ∧ (inp.pins = [] → st.pinlabels.length ≤ st.pincount →
        st.pincolors.length ≤ st.pincount →
        st.pin_objects.length = st.pincount) := by
  obtain ⟨hkeys, hnd, hpl, hpc, hdef⟩ := connector_pin_objects_spec inp st h
  refine ⟨?_, hkeys, ?_⟩
  · rw [hkeys]
    by_cases hc : st.pins.length
        < max st.pins.length (max st.pinlabels.length st.pincolors.length)
    · rw [if_pos hc]
      rw [List.nodup_append]
      refine ⟨hnd.map (Option.some_injective _), List.nodup_singleton _, ?_⟩
      intro x hx hx2
      rcases List.mem_map.mp hx with ⟨a, _, ha⟩
      rw [List.mem_singleton] at hx2
      subst hx2
      exact Option.noConfusion ha
    · rw [if_neg hc, List.append_nil]
      exact hnd.map (Option.some_injective _)
  · intro hemp hll hcl
    have hlen := hdef (by rw [List.isEmpty_iff]; exact hemp)
    have hmax : max st.pins.length
        (max st.pinlabels.length st.pincolors.length) = st.pins.length :=
      max_eq_left (by rw [hlen]; exact max_le hll hcl)
    have hsome : st.pin_objects.map Prod.fst = st.pins.map Option.some := by
      rw [hkeys, hmax, if_neg (lt_irrefl _), List.append_nil]
    have hlo : st.pin_objects.length = st.pins.length := by
      have hcg := congrArg List.length hsome
      simpa using hcg
    rw [hlo, hlen]

/-- C2 witness: the amended theorem applied to the concrete connector
`exC2w` (pincount 2, pins defaulted, one label): keys are exactly
`[some 1, some 2]` and the mapping has pincount entries. -/
theorem C2_pin_mapping_witness :
    stC2w.pin_objects.map Prod.fst
      = [some (IdOrText.int 1), some (IdOrText.int 2)]
    ∧ stC2w.pin_objects.length = stC2w.pincount := by
  have hspec := C2_pin_mapping_amended exC2w stC2w rfl
  refine ⟨?_, hspec.2.2 rfl (by decide) (by decide)⟩
  rw [hspec.2.1]
  decide

/-! ## Claim C8 -/

/-- The spec's scenario connector: `X1` with style `simple` and no other
declarations. -/
def exC8 : ConnectorInput := { designator := "X1", style := some "simple" }

/-- Connector `X1` with style `simple` and a declared pincount of 2. -/
def exC8bad : ConnectorInput :=
  { designator := "X1", style := some "simple", pincount := some 2 }

/-- The state constructed from `exC8`. -/
def stC8 : ConnectorState :=
  match connectorPostInit exC8 with
  | .ok st => st
  | .error _ => defaultConnectorState

/-- C8 counterexample: the claim says `show_name` defaults to true for a
simple connector, but for the scenario connector `X1` (style simple) the
code computes `show_name = style != "simple" and not autogenerated`, which
is false. -/
theorem C8_simple_connector_counterexample :
    (connectorPostInit exC8).map
      (fun st => (st.pincount, st.pin_objects.map Prod.fst,
        st.show_pincount, st.show_name))
    = .ok (1, [some (IdOrText.int 1)], false, false) := by
  rfl

/-- C8 (amended): a Connector with style "simple", no declared pincount
above 1, and no explicit pins/labels/colors/loops constructs successfully
with pincount forced to 1, exactly one Pin with id 1, and `show_pincount`
defaulting to false — but `show_name` also defaults to FALSE (not true as
claimed: `show_name = style != "simple" and not is_autogenerated`).
Declaring pincount greater than 1 with style "simple" fails construction. -/
theorem C8_simple_connector_amended :
    (∀ inp : ConnectorInput, inp.style = some "simple" →
      inp.pincount.getD 0 ≤ 1 →
      inp.pins = [] → inp.pinlabels = [] → inp.pincolors = [] →
      inp.loops = [] → inp.show_name = none → inp.show_pincount = none →
      ∃ st, connectorPostInit inp = .ok st
        ∧ st.pincount = 1
        ∧ st.pin_objects.map Prod.fst = [some (IdOrText.int 1)]
        ∧ st.show_pincount = false
        ∧ st.show_name = false)
    ∧ (∀ inp : ConnectorInput, ∀ n, inp.style = some "simple" →
        inp.pincount = some n → n > 1 →
        ∃ e, connectorPostInit inp = .error e) := by
  constructor
  · intro inp hstyle hpc hpins hpl hpcol hloops hsn hsp
    obtain ⟨d, style, pc, pins, pl, pcol, loops, sn, sp, hd, ac⟩ := inp
    simp only at hstyle hpc hpins hpl hpcol hloops hsn hsp
    subst hstyle; subst hpins; subst hpl; subst hpcol; subst hloops
    subst hsn; subst hsp
    cases pc with
    | none => exact ⟨_, rfl, rfl, rfl, rfl, rfl⟩
    | some n =>
      simp only [Option.getD_some] at hpc
      have hn : n = 0 ∨ n = 1 := by omega
      rcases hn with hn | hn
      · subst hn; exact ⟨_, rfl, rfl, rfl, rfl, rfl⟩
      · subst hn; exact ⟨_, rfl, rfl, rfl, rfl, rfl⟩
  · intro inp n hstyle hpc hn
    refine ⟨"Connectors with style set to simple may only have one pin", ?_⟩
    unfold connectorPostInit
    have hcheck : simplePincountCheck inp.style inp.pincount
        = .error "Connectors with style set to simple may only have one pin" := by
      unfold simplePincountCheck
      rw [hstyle, if_pos rfl, hpc]
      simp only
      rw [if_pos hn]
    rw [hcheck]

/-- C8 witness: the amended theorem applied to the scenario connector
`X1`: one pin with id 1, pincount 1, both display flags defaulted to false;
and the pincount-2 variant fails construction. -/
theorem C8_simple_connector_witness :
    stC8.pincount = 1
    ∧ stC8.pin_objects.map Prod.fst = [some (IdOrText.int 1)]
    ∧ stC8.show_pincount = false
    ∧ stC8.show_name = false
    ∧ (connectorPostInit exC8bad).toOption = none := by
  obtain ⟨st, hok, h1, h2, h3, h4⟩ :=
    C8_simple_connector_amended.1 exC8 rfl (by decide) rfl rfl rfl rfl rfl rfl
  obtain ⟨e, he⟩ :=
    C8_simple_connector_amended.2 exC8bad 2 rfl rfl (by decide)
  have hst : stC8 = st := by
    unfold stC8
    rw [hok]
  exact ⟨hst ▸ h1, hst ▸ h2, hst ▸ h3, hst ▸ h4, by rw [he]; rfl⟩

/-! ## Claim C4 -/

/-- An additional component whose quantity scales with WIRECOUNT. -/
def subC4 : AdditionalComponent := { qty_multiplier := .cable .WIRECOUNT }

/-- A shielded one-wire bundle carrying `subC4`. -/
def exC4 : CableInput :=
  { designator := "CBL3", wirecount := some 1, shield := .bool true,
    additional_components := [subC4] }

/-- The state constructed from `exC4`. -/
def stC4 : CableState :=
  match cablePostInit pfNat ccNone exC4 with
  | .ok st => st
  | .error _ => defaultCableState

/-- State `stC4` after multiplier resolution. -/
def stC4r : CableState :=
  match cableComputeQtyMultipliers stC4 with
  | .ok st => st
  | .error _ => defaultCableState

/-- C4 counterexample: the claim "the computed multiplier factor equals
the cable's number of wires (its wirecount), including when the cable is
shielded" is false: for the shielded cable `exC4` with wirecount 1 the
resolver computes factor 2, because `len(wire_objects)` counts the shield
entry. -/
theorem C4_wirecount_multiplier_counterexample :
    (cableComputeQtyMultipliers stC4).map
      (fun st => (stC4.wirecount,
        st.additional_components.map (fun a => a.qty_multiplier_computed)))
    = .ok (1, [(2 : ℚ)]) := by
  rfl

/-- C4 (amended): for a successfully constructed Cable/Bundle whose
`wirelabels` list is not longer than its wirecount, resolving a WIRECOUNT
multiplier sets the computed factor to the total size of the wire mapping:
`wirecount` for an unshielded cable, and `wirecount + 1` when shielded
(the shield entry is counted as a wire). -/
theorem C4_wirecount_multiplier_amended (pf : String → Option ℚ)
    (cc : String → Option (Nat → String)) (inp : CableInput)
    (st st' : CableState) (i : Nat) (sub : AdditionalComponent)
    (h : cablePostInit pf cc inp = .ok st)
    (hle : st.wirelabels.length ≤ st.wirecount)
    (hres : cableComputeQtyMultipliers st = .ok st')
    (hsub : st.additional_components.get? i = some sub)
    (hm : sub.qty_multiplier = .cable .WIRECOUNT) :
    st'.additional_components.get? i
      = some { sub with qty_multiplier_computed :=
          ((st.wirecount
            + (if shieldTruthy st.shield then 1 else 0) : Nat) : ℚ) } := by
  have hlen : st.wire_objects.length
      = st.wirecount + (if shieldTruthy st.shield then 1 else 0) := by
    obtain ⟨_, _, _, h4, _⟩ := cable_wire_objects_spec pf cc inp st h
    rw [h4, max_eq_left hle]
  unfold cableComputeQtyMultipliers at hres
  cases hmap : exceptMapM (cableResolveSub st) st.additional_components with
  | error e => rw [hmap] at hres; exact absurd hres (by simp)
  | ok subs =>
    rw [hmap] at hres
    simp only at hres
    injection hres with hres
    obtain ⟨y, hy, hget⟩ := exceptMapM_get? _ _ _ hmap i sub hsub
    have hyval : cableResolveSub st sub
        = .ok { sub with qty_multiplier_computed :=
            (st.wire_objects.length : ℚ) } := by
      unfold cableResolveSub
      rw [hm]
      simp only [cableQtyMultiplierValue]
      rw [if_neg (by simp)]
    rw [hyval] at hy
    injection hy with hy
    have hsubs : st'.additional_components = subs := by
      rw [← hres]
    rw [hsubs, hget, ← hy, hlen]

/-- C4 witness: the amended theorem applied to the concrete shielded
cable `exC4` (wirecount 1): factor `1 + 1 = 2`. -/
theorem C4_wirecount_multiplier_witness :
    stC4r.additional_components.get? 0
      = some { subC4 with qty_multiplier_computed :=
          ((stC4.wirecount
            + (if shieldTruthy stC4.shield then 1 else 0) : Nat) : ℚ) }
    ∧ ((stC4.wirecount
        + (if shieldTruthy stC4.shield then 1 else 0) : Nat) : ℚ) = 2 :=
  ⟨C4_wirecount_multiplier_amended pfNat ccNone exC4 stC4 stC4r 0 subC4 rfl
    (by decide) rfl rfl rfl, by decide⟩

/-! ## Claim C5 -/

/-- C5: `parse_number_and_unit` (for any model `pf` of Python's
`float()`) satisfies: `None` input yields `None` output; a string containing
a space is split on the first space into a numeric token and a unit token; a
string without a space is wholly numeric and takes the caller-supplied
default unit; and it raises exactly when the numeric token cannot be parsed
as a floating-point number. -/
theorem C5_parse_number_and_unit_spec (pf : String → Option ℚ)
    (du : Option String) :
    parse_number_and_unit pf .pyNone du = .ok none
    ∧ (∀ t u : List Char, ' ' ∉ t → ∀ q, pf t.asString = some q →
        parse_number_and_unit pf (.pyStr (t ++ ' ' :: u).asString) du
          = .ok (some ⟨some q, some u.asString⟩))
    ∧ (∀ s : String, ' ' ∉ s.toList → ∀ q, pf s = some q →
        parse_number_and_unit pf (.pyStr s) du = .ok (some ⟨some q, du⟩))
    ∧ (∀ s : String,
        (∃ e, parse_number_and_unit pf (.pyStr s) du = .error e)
          ↔ pf (splitOnFirstSpace s.toList).1.asString = none) := by
  refine ⟨rfl, ?_, ?_, ?_⟩
  · intro t u ht q hq
    have hsplit : splitOnFirstSpace ((t ++ ' ' :: u).asString).toList
        = (t, some u) := splitOnFirstSpace_space t u ht
    simp only [parse_number_and_unit, hsplit, hq]
  · intro s hs q hq
    have hsplit : splitOnFirstSpace s.toList = (s.toList, none) :=
      splitOnFirstSpace_no_space s.toList hs
    have hback : (s.toList).asString = s := rfl
    simp only [parse_number_and_unit, hsplit, hback, hq]
  · intro s
    cases hp : pf ((splitOnFirstSpace s.toList).1.asString) with
    | none =>
      constructor
      · intro _; rfl
      · intro _
        exact ⟨s ++ " is not a valid number and unit.",
          by simp only [parse_number_and_unit, hp]⟩
    | some q =>
      constructor
      · rintro ⟨e, he⟩
        simp only [parse_number_and_unit, hp] at he
        exact absurd he (by simp)
      · intro hc
        exact absurd hc (by simp)

/-- C5 witness: the specification applied at concrete inputs with the
decimal-natural `float()` model: `"3 m"` parses to (3, "m"); `"7"` with
default unit "mm2" parses to (7, "mm2"); `"x m"` raises; `None` passes
through. -/
theorem C5_parse_number_and_unit_witness :
    parse_number_and_unit pfNat .pyNone (some "m") = .ok none
    ∧ parse_number_and_unit pfNat (.pyStr "3 m") none
      = .ok (some ⟨some 3, some "m"⟩)
    ∧ parse_number_and_unit pfNat (.pyStr "7") (some "mm2")
      = .ok (some ⟨some 7, some "mm2"⟩)
    ∧ pfNat (splitOnFirstSpace ("x m").toList).1.asString = none := by
  refine ⟨(C5_parse_number_and_unit_spec pfNat (some "m")).1, ?_, ?_, ?_⟩
  · have hx := (C5_parse_number_and_unit_spec pfNat none).2.1
      ['3'] ['m'] (by decide) 3 (by decide)
    exact hx
  · exact (C5_parse_number_and_unit_spec pfNat (some "mm2")).2.2.1
      "7" (by decide) 7 (by decide)
  · exact ((C5_parse_number_and_unit_spec pfNat none).2.2.2 "x m").mp
      ⟨"x m is not a valid number and unit.", by rfl⟩

/-! ## Claim C6 -/

/-- C6: the multiplier resolver enforces scope: a Cable-scoped symbolic
multiplier under a Connector fails resolution, a Connector-scoped symbolic
multiplier under a Cable fails resolution, and plain numeric multipliers
never trigger a scope failure on either owner kind: they pass through
unchanged as the computed factor (including for whole lists of numeric
subitems, which always resolve). -/
theorem C6_multiplier_scope_spec :
    (∀ (st : ConnectorState) (sub : AdditionalComponent),
      sub ∈ st.additional_components →
      (∃ m, sub.qty_multiplier = QtyMultiplier.cable m) →
      ∃ e, connectorComputeQtyMultipliers st = .error e)
    ∧ (∀ (st : CableState) (sub : AdditionalComponent),
      sub ∈ st.additional_components →
      (∃ m, sub.qty_multiplier = QtyMultiplier.conn m) →
      ∃ e, cableComputeQtyMultipliers st = .error e)
    ∧ (∀ (st : ConnectorState) (sub : AdditionalComponent) (x : ℚ),
        sub.qty_multiplier = .num x →
        connectorResolveSub st sub
          = .ok { sub with qty_multiplier_computed := x })
    ∧ (∀ (st : CableState) (sub : AdditionalComponent) (x : ℚ),
        sub.qty_multiplier = .num x →
        cableResolveSub st sub
          = .ok { sub with qty_multiplier_computed := x })
    ∧ (∀ st : ConnectorState,
        (∀ sub ∈ st.additional_components, ∃ x, sub.qty_multiplier = .num x) →
        ∃ st', connectorComputeQtyMultipliers st = .ok st')
    ∧ (∀ st : CableState,
        (∀ sub ∈ st.additional_components, ∃ x, sub.qty_multiplier = .num x) →
        ∃ st', cableComputeQtyMultipliers st = .ok st') := by
  refine ⟨?_, ?_, ?_, ?_, ?_, ?_⟩
  · intro st sub hmem ⟨m, hm⟩
    have hf : connectorResolveSub st sub
        = .error "Used a cable multiplier in a connector!" := by
      simp only [connectorResolveSub, hm]
    obtain ⟨e', he'⟩ := exceptMapM_mem_error _ _ sub _ hmem hf
    exact ⟨e', by unfold connectorComputeQtyMultipliers; rw [he']⟩
  · intro st sub hmem ⟨m, hm⟩
    have hf : cableResolveSub st sub
        = .error "Used a connector multiplier in a cable!" := by
      simp only [cableResolveSub, hm]
    obtain ⟨e', he'⟩ := exceptMapM_mem_error _ _ sub _ hmem hf
    exact ⟨e', by unfold cableComputeQtyMultipliers; rw [he']⟩
  · intro st sub x hm
    simp only [connectorResolveSub, hm]
  · intro st sub x hm
    simp only [cableResolveSub, hm]
  · intro st hall
    have hmap := exceptMapM_congr_ok (connectorResolveSub st)
      (fun sub => { sub with qty_multiplier_computed :=
        match sub.qty_multiplier with
        | QtyMultiplier.num x => x
        | _ => sub.qty_multiplier_computed })
      st.additional_components
      (by
        intro sub hmem
        obtain ⟨x, hx⟩ := hall sub hmem
        simp only [connectorResolveSub, hx])
    exact ⟨_, by unfold connectorComputeQtyMultipliers; rw [hmap]⟩
  · intro st hall
    have hmap := exceptMapM_congr_ok (cableResolveSub st)
      (fun sub => { sub with qty_multiplier_computed :=
        match sub.qty_multiplier with
        | QtyMultiplier.num x => x
        | _ => sub.qty_multiplier_computed })
      st.additional_components
      (by
        intro sub hmem
        obtain ⟨x, hx⟩ := hall sub hmem
        simp only [cableResolveSub, hx])
    exact ⟨_, by unfold cableComputeQtyMultipliers; rw [hmap]⟩

/-- A connector-scoped multiplier subitem. -/
def subConnPincount : AdditionalComponent := { qty_multiplier := .conn .PINCOUNT }

/-- A plain numeric multiplier subitem. -/
def subNum5 : AdditionalComponent := { qty_multiplier := .num 5 }

/-- A connector carrying a cable-scoped subitem. -/
def stC6conn : ConnectorState :=
  { defaultConnectorState with additional_components := [subC4] }

/-- A cable carrying a connector-scoped subitem. -/
def stC6cab : CableState :=
  { defaultCableState with additional_components := [subConnPincount] }

/-- A connector carrying a numeric subitem. -/
def stC6connNum : ConnectorState :=
  { defaultConnectorState with additional_components := [subNum5] }

/-- A cable carrying a numeric subitem. -/
def stC6cabNum : CableState :=
  { defaultCableState with additional_components := [subNum5] }

/-- C6 witness: scope enforcement at concrete states: a WIRECOUNT
subitem under a connector fails, a PINCOUNT subitem under a cable fails,
and the numeric multiplier 5 passes through unchanged on both owners, whose
resolutions succeed. -/
theorem C6_multiplier_scope_witness :
    (connectorComputeQtyMultipliers stC6conn).toOption = none
    ∧ (cableComputeQtyMultipliers stC6cab).toOption = none
    ∧ connectorResolveSub stC6connNum subNum5
      = .ok { subNum5 with qty_multiplier_computed := 5 }
    ∧ cableResolveSub stC6cabNum subNum5
      = .ok { subNum5 with qty_multiplier_computed := 5 }
    ∧ (connectorComputeQtyMultipliers stC6connNum).toOption.isSome = true
    ∧ (cableComputeQtyMultipliers stC6cabNum).toOption.isSome = true := by
  obtain ⟨e1, he1⟩ := C6_multiplier_scope_spec.1 stC6conn subC4
    (List.mem_singleton.mpr rfl) ⟨.WIRECOUNT, rfl⟩
  obtain ⟨e2, he2⟩ := C6_multiplier_scope_spec.2.1 stC6cab subConnPincount
    (List.mem_singleton.mpr rfl) ⟨.PINCOUNT, rfl⟩
  obtain ⟨s1, hs1⟩ := C6_multiplier_scope_spec.2.2.2.2.1 stC6connNum
    (by
      intro sub hmem
      have hmem2 : sub ∈ [subNum5] := hmem
      rw [List.mem_singleton] at hmem2
      exact ⟨5, by rw [hmem2]; rfl⟩)
  obtain ⟨s2, hs2⟩ := C6_multiplier_scope_spec.2.2.2.2.2 stC6cabNum
    (by
      intro sub hmem
      have hmem2 : sub ∈ [subNum5] := hmem
      rw [List.mem_singleton] at hmem2
      exact ⟨5, by rw [hmem2]; rfl⟩)
  refine ⟨by rw [he1]; rfl, by rw [he2]; rfl, ?_, ?_,
    by rw [hs1]; rfl, by rw [hs2]; rfl⟩
  · exact C6_multiplier_scope_spec.2.2.1 stC6connNum subNum5 5 rfl
  · exact C6_multiplier_scope_spec.2.2.2.1 stC6cabNum subNum5 5 rfl

/-! ## Claim C7 -/

/-- C7: for an AdditionalComponent under a Cable with qty_multiplier
LENGTH or TOTAL_LENGTH: an explicit qty unit makes resolution fail (both at
the subitem and for the whole resolver run); otherwise, when the parent
cable has a length, the subitem's qty unit becomes the cable's length unit,
LENGTH yields the cable's length number as the computed factor, and
TOTAL_LENGTH yields the sum of the per-wire length numbers. -/
theorem C7_length_multiplier_spec :
    (∀ (st : CableState) (sub : AdditionalComponent) (m : QtyMultiplierCable),
      sub.qty_multiplier = .cable m → (m = .LENGTH ∨ m = .TOTAL_LENGTH) →
      sub.qty.unit ≠ none →
      (∃ e, cableResolveSub st sub = .error e)
      ∧ (sub ∈ st.additional_components →
          ∃ e, cableComputeQtyMultipliers st = .error e))
    ∧ (∀ (st : CableState) (sub : AdditionalComponent) (nu : NumberAndUnit),
        st.length = some nu → sub.qty.unit = none →
        (sub.qty_multiplier = .cable .LENGTH →
          cableResolveSub st sub
            = .ok { sub with qty := ⟨sub.qty.number, nu.unit⟩, qty_multiplier_computed := nu.number.getD 0 })
        ∧ (sub.qty_multiplier = .cable .TOTAL_LENGTH →
          cableResolveSub st sub
            = .ok { sub with qty := ⟨sub.qty.number, nu.unit⟩, qty_multiplier_computed := cableTotalLength st })) := by
  constructor
  · intro st sub m hm hm12 hu
    have hf : cableResolveSub st sub
        = .error "No unit may be specified when using a length multiplier" := by
      unfold cableResolveSub
      rw [hm]
      simp only
      rw [if_pos hm12, if_pos hu]
    refine ⟨⟨_, hf⟩, ?_⟩
    intro hmem
    obtain ⟨e', he'⟩ := exceptMapM_mem_error _ _ sub _ hmem hf
    exact ⟨e', by unfold cableComputeQtyMultipliers; rw [he']⟩
  · intro st sub nu hlen hu
    constructor
    · intro hm
      simp [cableResolveSub, hm, hu, hlen, cableQtyMultiplierValue]
    · intro hm
      simp [cableResolveSub, hm, hu, hlen, cableQtyMultiplierValue]

/-- A TOTAL_LENGTH multiplier subitem. -/
def subTL : AdditionalComponent := { qty_multiplier := .cable .TOTAL_LENGTH }

/-- A LENGTH multiplier subitem whose qty carries an explicit unit
("pcs"), which the resolver must reject. -/
def subLenUnit : AdditionalComponent :=
  { qty := ⟨some 1, some "pcs"⟩, qty_multiplier := .cable .LENGTH }

/-- A wire of the given length (in "m") at the given index. -/
def wireLen (n : ℚ) (i : Nat) : WireClass :=
  { parent := "B1", index := i, id := .int ((i : Int) + 1), label := none,
    color := mkMultiColor none, length := some ⟨some n, some "m"⟩ }

/-- A bundle with wires of length 1 m, 2 m, 3 m and a cable length of
9 m. -/
def stC7 : CableState :=
  { defaultCableState with
    length := some ⟨some 9, some "m"⟩
    wire_objects := [(.int 1, wireLen 1 0), (.int 2, wireLen 2 1),
      (.int 3, wireLen 3 2)]
    additional_components := [subTL] }

/-- C7 witness: on the bundle with wires 1 m/2 m/3 m, TOTAL_LENGTH
resolves to factor 6 and the subitem's qty unit becomes "m"; a LENGTH
subitem with an explicit unit fails. -/
theorem C7_length_multiplier_witness :
    cableResolveSub stC7 subTL
      = .ok { subTL with qty := ⟨subTL.qty.number, some "m"⟩, qty_multiplier_computed := 6 }
    ∧ cableTotalLength stC7 = 6
    ∧ (cableResolveSub stC7 subLenUnit).toOption = none := by
  have h6 : cableTotalLength stC7 = 6 := by
    norm_num [cableTotalLength, stC7, wireLen]
  have h1 := (C7_length_multiplier_spec.2 stC7 subTL ⟨some 9, some "m"⟩
    rfl rfl).2 rfl
  obtain ⟨e, he⟩ := (C7_length_multiplier_spec.1 stC7 subLenUnit .LENGTH
    rfl (Or.inl rfl) (by decide)).1
  refine ⟨?_, h6, by rw [he]; rfl⟩
  rw [h1, h6]

/-! ## Claim C3 -/

/-- C3: for every Component (and every Wire), when `sum_amounts_in_bom`
is true the BOM hash omits the amount value but carries the amount's unit
(`None` when no amount/length exists) and `bom_amount()` reports a null
amount; when false the hash carries the exact amount value (the wire's
length) and `bom_amount()` reports the full amount.  The hash always
carries the description string and the part-number identity tuple. -/
theorem C3_bom_hash_spec :
    ∀ (c : Component) (w : WireClass),
      (c.sum_amounts_in_bom = true →
        c.bom_hash.amount = none
        ∧ c.bom_hash.qty_unit = (match c.amount with
            | some a => a.unit
            | none => none)
        ∧ c.bom_amount = some ⟨none, none⟩)
      ∧ (c.sum_amounts_in_bom = false →
        c.bom_hash.amount = c.amount
        ∧ c.bom_hash.qty_unit = c.qty.unit
        ∧ c.bom_amount = c.amount)
      ∧ c.bom_hash.description = c.description
      ∧ c.bom_hash.partnumbers = c.partnumbers
      ∧ (w.sum_amounts_in_bom = true →
        w.bom_hash.amount = none
        ∧ w.bom_hash.qty_unit = (match w.length with
            | some l => l.unit
            | none => none))
      ∧ (w.sum_amounts_in_bom = false →
        w.bom_hash.amount = w.length
        ∧ w.bom_hash.qty_unit = none)
      ∧ w.bom_hash.description = w.description
      ∧ w.bom_hash.partnumbers = w.partnumbers := by
  intro c w
  refine ⟨?_, ?_, ?_, ?_, ?_, ?_, ?_, ?_⟩
  · intro hc
    simp [Component.bom_hash, Component.bom_amount, hc]
  · intro hc
    simp [Component.bom_hash, Component.bom_amount, hc]
  · by_cases hc : c.sum_amounts_in_bom <;> simp [Component.bom_hash, hc]
  · by_cases hc : c.sum_amounts_in_bom <;> simp [Component.bom_hash, hc]
  · intro hw
    simp [WireClass.bom_hash, hw]
  · intro hw
    simp [WireClass.bom_hash, hw]
  · by_cases hw : w.sum_amounts_in_bom <;> simp [WireClass.bom_hash, hw]
  · by_cases hw : w.sum_amounts_in_bom <;> simp [WireClass.bom_hash, hw]

/-- A component with an amount of 2 m that sums in the BOM. -/
def cC3 : Component :=
  { description := "Connector, X", qty := ⟨some 1, none⟩,
    amount := some ⟨some 2, some "m"⟩, sum_amounts_in_bom := true,
    partnumbers := none }

/-- The same component opted out of amount summing. -/
def cC3b : Component := { cC3 with sum_amounts_in_bom := false }

/-- A wire of length 3 m that sums in the BOM. -/
def wC3 : WireClass :=
  { parent := "W", index := 0, id := .int 1, label := none,
    color := mkMultiColor none, length := some ⟨some 3, some "m"⟩ }

/-- The same wire opted out of amount summing. -/
def wC3b : WireClass := { wC3 with sum_amounts_in_bom := false }

/-- C3 witness: the hash/amount specification applied to concrete
components and wires in both `sum_amounts_in_bom` modes. -/
theorem C3_bom_hash_witness :
    cC3.bom_hash.amount = none
    ∧ cC3.bom_hash.qty_unit = some "m"
    ∧ cC3.bom_amount = some ⟨none, none⟩
    ∧ cC3b.bom_hash.amount = some ⟨some 2, some "m"⟩
    ∧ cC3b.bom_amount = some ⟨some 2, some "m"⟩
    ∧ wC3.bom_hash.amount = none
    ∧ wC3.bom_hash.qty_unit = some "m"
    ∧ wC3b.bom_hash.amount = some ⟨some 3, some "m"⟩
    ∧ cC3.bom_hash.description = cC3.description := by
  obtain ⟨a1, a2, a3, a4, a5, a6, a7, a8⟩ := C3_bom_hash_spec cC3 wC3
  obtain ⟨b1, b2, b3, b4, b5, b6, b7, b8⟩ := C3_bom_hash_spec cC3b wC3b
  obtain ⟨x1, x2, x3⟩ := a1 rfl
  obtain ⟨y1, y2, y3⟩ := b2 rfl
  obtain ⟨z1, z2⟩ := a5 rfl
  obtain ⟨u1, u2⟩ := b6 rfl
  exact ⟨x1, x2, x3, y1, y3, z1, z2, u1, a3⟩

/-! ## Claim C9 -/

/-- C9: `activate_pin` (used both for connections and loop endpoints)
never decreases any pin's connection count — a connection-activation
increments the activated pin's count by exactly one and leaves every other
pin untouched — and `should_show_pin` is false exactly when
`hide_disconnected_pins` is set and the pin's connection count is zero. -/
theorem C9_activation_visibility_spec :
    (∀ (st : ConnectorState) (k : Option IdOrText) (side : Option Side)
        (b : Bool) (st' : ConnectorState),
      activate_pin st k side b = .ok st' →
      (∀ (k2 : Option IdOrText) (p : PinClass),
        dictLookup st.pin_objects k2 = some p →
        ∃ p', dictLookup st'.pin_objects k2 = some p'
          ∧ p.num_connections ≤ p'.num_connections)
      ∧ (b = true → ∀ p, dictLookup st.pin_objects k = some p →
          dictLookup st'.pin_objects k
            = some { p with num_connections := p.num_connections + 1 }))
    ∧ (∀ (st : ConnectorState) (k : Option IdOrText) (p : PinClass),
        dictLookup st.pin_objects k = some p →
        should_show_pin st k
          = .ok (!st.hide_disconnected_pins || decide (p.num_connections > 0))
        ∧ (should_show_pin st k = .ok false
          ↔ st.hide_disconnected_pins = true ∧ p.num_connections = 0)) := by
  constructor
  · intro st k side b st' h
    unfold activate_pin at h
    cases hb : b with
    | false =>
      rw [hb] at h
      simp only [Bool.false_eq_true, if_false] at h
      injection h with h
      subst h
      constructor
      · intro k2 p hp
        exact ⟨p, hp, le_refl _⟩
      · intro hbt
        exact absurd hbt (by simp)
    | true =>
      rw [hb] at h
      simp only [if_true] at h
      cases hl : dictLookup st.pin_objects k with
      | none => rw [hl] at h; exact absurd h (by simp)
      | some p0 =>
        rw [hl] at h
        simp only at h
        injection h with h
        subst h
        have hmem := dictLookup_mem_keys _ _ _ hl
        constructor
        · intro k2 p hp
          by_cases hk : k2 = k
          · subst hk
            have hpp : p = p0 := by
              rw [hp] at hl
              exact Option.some.inj hl
            subst hpp
            exact ⟨{ p with num_connections := p.num_connections + 1 },
              dictLookup_insert_self _ _ _ hmem, Nat.le_succ _⟩
          · exact ⟨p, by
              show dictLookup (dictInsert st.pin_objects k _) k2 = some p
              rw [dictLookup_insert_ne _ _ _ _ hk]
              exact hp, le_refl _⟩
        · intro _ p hp
          have hpp : p = p0 := (Option.some.inj hp).symm
          subst hpp
          exact dictLookup_insert_self _ _ _ hmem
  · intro st k p hp
    unfold should_show_pin
    by_cases hh : st.hide_disconnected_pins = false
    · rw [if_pos hh, hh]
      constructor
      · rfl
      · constructor
        · intro hc
          exact absurd hc (by simp)
        · rintro ⟨h1, _⟩
          exact absurd h1 (by simp)
    · have hh2 : st.hide_disconnected_pins = true := by
        cases hx : st.hide_disconnected_pins
        · exact absurd hx hh
        · rfl
      rw [if_neg hh, hp, hh2]
      constructor
      · rfl
      · constructor
        · intro hc
          refine ⟨rfl, ?_⟩
          injection hc with hc
          have hz := of_decide_eq_false hc
          omega
        · rintro ⟨_, h2⟩
          simp [h2]

/-- A connector with two pins, pin 1 connected once. -/
def stC9 : ConnectorState :=
  { defaultConnectorState with
    hide_disconnected_pins := true
    pin_objects :=
      [(some (IdOrText.int 1),
        { index := 0, id := some (.int 1), label := none,
          color := mkMultiColor none, parent := "J9" }),
       (some (IdOrText.int 2),
        { index := 1, id := some (.int 2), label := none,
          color := mkMultiColor none, parent := "J9" })] }

/-- C9 witness: activating pin 1 of `stC9` increments its count to 1 and
leaves pin 2 at 0; afterwards `should_show_pin` is true for pin 1 and false
for pin 2 (`hide_disconnected_pins` is set). -/
theorem C9_activation_visibility_witness :
    (activate_pin stC9 (some (.int 1)) none true).toOption.isSome = true
    ∧ ((activate_pin stC9 (some (.int 1)) none true).map
        (fun st => (dictLookup st.pin_objects (some (.int 1))).map
          (fun p => p.num_connections))).toOption = some (some 1)
    ∧ should_show_pin stC9 (some (.int 2)) = .ok false := by
  cases hact : activate_pin stC9 (some (.int 1)) none true with
  | error e =>
    have hok : (activate_pin stC9 (some (.int 1)) none true).toOption.isSome
        = true := by rfl
    rw [hact] at hok
    exact absurd hok (by simp [Except.toOption])
  | ok st' =>
    obtain ⟨hmono, hincr⟩ :=
      C9_activation_visibility_spec.1 stC9 (some (.int 1)) none true st' hact
    have h1 := hincr rfl _ (show dictLookup stC9.pin_objects
      (some (.int 1)) = some _ from rfl)
    obtain ⟨hshow, hiff⟩ := C9_activation_visibility_spec.2 stC9
      (some (.int 2))
      { index := 1, id := some (.int 2), label := none,
        color := mkMultiColor none, parent := "J9" } rfl
    refine ⟨by rfl, ?_, ?_⟩
    · simp only [Except.map, Except.toOption]
      rw [h1]
      rfl
    · exact hiff.mpr ⟨rfl, rfl⟩

/-! ## Claim C10 -/

/-- C10: for every Cable whose category is "bundle", both `bom_hash`
and `description` raise ("Do this at the wire level!"); for every
non-bundle Cable both return normally. -/
theorem C10_bundle_guard_spec :
    ∀ st : CableState,
      (st.category = some "bundle" →
        cableBomHash st = .error "Do this at the wire level!"
        ∧ cableDescription st = .error "Do this at the wire level!")
      ∧ (st.category ≠ some "bundle" →
        (cableDescription st).toOption.isSome = true
        ∧ (cableBomHash st).toOption.isSome = true) := by
  intro st
  constructor
  · intro hb
    constructor
    · unfold cableBomHash
      rw [if_pos hb]
    · unfold cableDescription
      rw [if_pos hb]
  · intro hb
    constructor
    · unfold cableDescription
      rw [if_neg hb]
      rfl
    · unfold cableBomHash cableDescription
      rw [if_neg hb, if_neg hb]
      rfl

/-- A bundle-category cable. -/
def stC10b : CableState :=
  { defaultCableState with category := some "bundle" }

/-- C10 witness: the bundle guard at concrete states: `stC10b` (a
bundle) raises from both properties, while the non-bundle
`defaultCableState` returns normally from both. -/
theorem C10_bundle_guard_witness :
    cableBomHash stC10b = .error "Do this at the wire level!"
    ∧ cableDescription stC10b = .error "Do this at the wire level!"
    ∧ (cableDescription defaultCableState).toOption.isSome = true
    ∧ (cableBomHash defaultCableState).toOption.isSome = true := by
  obtain ⟨h1, h2⟩ := (C10_bundle_guard_spec stC10b).1 rfl
  obtain ⟨h3, h4⟩ := (C10_bundle_guard_spec defaultCableState).2 (by decide)
  exact ⟨h1, h2, h3, h4⟩

end WireViz
